import Mathlib

/-!
LiangNing7/pkg : the JWT authenticator (`authn/jwt`); the code generator
`id/code.go` follows in the namespace `id`.

A shallow embedding of `authn/jwt/jwt.go`, `authn/jwt/token.go`,
`authn/jwt/store.go` and of `I18n.LocalizeT` (`i18n/i18n.go`).

Conventions of the embedding

* `time.Time` is an integer number of nanoseconds since the Unix epoch and
  `time.Duration` an integer number of nanoseconds.  `Time.Add` is exact on
  every wall-clock reading; `Time.Sub` (hence `time.Until`) saturates at the
  ends of the int64 range of `time.Duration`, as in the Go library.
* every consultation of the clock in the source (`time.Now()` in `Sign`, the
  reading taken by `RegisteredClaims.Valid`, the reading taken by
  `time.Until`) is an explicit argument.
* a Go `string` is the text it holds (a Lean `String`); the subject and the
  issuer of the claims, which `Sign` hands to the JSON codec, are `GoString`s,
  which need not be valid UTF-8.
* a Go `(value, error)` result is an `Except GoError value`; a bare `error`
  result is an `Option GoError` (`none` is the nil error); a nil-pointer
  dereference is the `panicked` outcome of `Run`.
* the revocation store is a record of transition functions over a state type
  `σ`; every operation is given the instant at which the backend serves it.
* the parts of `golang-jwt/jwt/v4` that are control flow (`ParseUnverified`,
  `ParseWithClaims`, `RegisteredClaims.Valid`, `SignedString`) are embedded;
  the segment codec (JSON + base64url) and the signature primitives are the
  fields of a `Lib` record, and the theorems hold for every `Lib` (those about
  tokens issued by `Sign`, for every `Lib` that meets the contract
  `Lib.Lawful`).
* `bookLib`, `memStore`, `logStore`, `downStore` and `logClient` are small
  executable instances on which the operations are evaluated.
-/

namespace jwt

/-! ## `time` -/

/-- An instant: nanoseconds since the Unix epoch (`time.Time`). -/
abbrev Time := Int

/-- A span of time in nanoseconds (`time.Duration`, an int64 in Go). -/
abbrev Duration := Int

/-- The constant `time.Second`. -/
def Second : Duration := 1000000000

/-- The constant `time.Hour`. -/
def Hour : Duration := 3600 * Second

/-- The smallest `time.Duration` (the smallest int64). -/
def minDuration : Duration := -9223372036854775808

/-- The largest `time.Duration` (the largest int64). -/
def maxDuration : Duration := 9223372036854775807

/-- The method `Time.Add`. -/
def Time.Add (t : Time) (d : Duration) : Time := t + d

/-- The method `Time.Sub`: the difference `t - u`; as the Go documentation has
it, "if the result exceeds the maximum (or minimum) value that can be stored in
a Duration, the maximum (or minimum) duration will be returned". -/
def Time.Sub (t u : Time) : Duration :=
  if t - u < minDuration then minDuration
  else if maxDuration < t - u then maxDuration
  else t - u

/-- The function `time.Until(t)` = `t.Sub(time.Now())`, the reading of the clock
being `now`. -/
def Until (t now : Time) : Duration := Time.Sub t now

/-- Seconds from the zero `time.Time` (1 January of year 1) to the Unix
epoch, the constant `unixToInternal` of the Go library. -/
def unixToInternal : Int := 62135596800

/-- The method `Time.Truncate(d)`: rounds `t` down to a multiple of `d` counted
from the zero time; `t` is returned unchanged when `d <= 0`. -/
def Time.Truncate (t : Time) (d : Duration) : Time :=
  if d ≤ 0 then t else t - (t + unixToInternal * Second) % d

/-- The method `Time.Unix()`: whole seconds since the epoch, rounded down. -/
def Time.Unix (t : Time) : Int := t / Second

/-- The method `Time.Before`. -/
def Time.Before (t u : Time) : Bool := decide (t < u)

/-- The method `Time.After`. -/
def Time.After (t u : Time) : Bool := decide (u < t)

/-- The method `Time.Equal`. -/
def Time.Equal (t u : Time) : Bool := decide (t = u)

/-! ## errors -/

/-- The type `*jwt.ValidationError` of golang-jwt: the bit field `Errors` and
the text of the error (the wrapped `Inner` error is only kept as its text). -/
structure ValidationError where
  Errors : Nat
  text : String
  deriving DecidableEq, Repr

/-- A Go `error` value: a kratos `*errors.Error` (status code, reason,
message), a `*jwt.ValidationError`, or any other error. -/
inductive GoError where
  | kratos (code : Int) (reason : String) (message : String)
  | validation (ve : ValidationError)
  | other (msg : String)
  deriving DecidableEq, Repr

/-- The method `Error()` of an error value.  For a kratos error it is the
format `error: code = %d reason = %s message = %s metadata = %v cause = %v`
with no metadata and no cause. -/
def GoError.Error : GoError → String
  | .kratos code reason message =>
      "error: code = " ++ toString code ++ " reason = " ++ reason ++
        " message = " ++ message ++ " metadata = map[] cause = <nil>"
  | .validation ve => ve.text
  | .other msg => msg

/-- The kratos constructor `errors.Unauthorized(reason, message)`: status code 401. -/
def Unauthorized (reason message : String) : GoError := .kratos 401 reason message

/-- An error of the unauthorized class: a kratos error with status code 401 and
reason "Unauthorized". -/
def GoError.isUnauthorized (e : GoError) : Prop :=
  ∃ msg, e = .kratos 401 "Unauthorized" msg

/-- Bit `ValidationErrorMalformed` (`1 << 0`). -/
def ValidationErrorMalformed : Nat := 1
/-- Bit `ValidationErrorUnverifiable` (`1 << 1`). -/
def ValidationErrorUnverifiable : Nat := 2
/-- Bit `ValidationErrorSignatureInvalid` (`1 << 2`). -/
def ValidationErrorSignatureInvalid : Nat := 4
/-- Bit `ValidationErrorExpired` (`1 << 4`). -/
def ValidationErrorExpired : Nat := 16
/-- Bit `ValidationErrorIssuedAt` (`1 << 5`). -/
def ValidationErrorIssuedAt : Nat := 32
/-- Bit `ValidationErrorNotValidYet` (`1 << 7`). -/
def ValidationErrorNotValidYet : Nat := 128

/-- The constant `reason` of jwt.go. -/
def reason : String := "Unauthorized"

/-- The constant `defaultKey` of jwt.go. -/
def defaultKey : String := "onex(#)666"

/-- The variable `ErrTokenInvalid`. -/
def ErrTokenInvalid : GoError := Unauthorized reason "Token is invalid"
/-- The variable `ErrTokenExpired`. -/
def ErrTokenExpired : GoError := Unauthorized reason "Token is expired"
/-- The variable `ErrTokenParseFail`. -/
def ErrTokenParseFail : GoError := Unauthorized reason "Fail to parse token"
/-- The variable `ErrUnSupportSigningMethod`. -/
def ErrUnSupportSigningMethod : GoError := Unauthorized reason "Wrong signing method"
/-- The variable `ErrSignTokenFailed`. -/
def ErrSignTokenFailed : GoError := Unauthorized reason "Failed to sign token"

/-! ## i18n -/

/-- The go-i18n `Message`: its identifier and its default text `Other`. -/
structure Message where
  ID : String
  Other : String
  deriving DecidableEq, Repr

/-- The variable `MessageTokenInvalid`. -/
def MessageTokenInvalid : Message := ⟨"jwt.token.invalid", ErrTokenInvalid.Error⟩
/-- The variable `MessageTokenExpired`. -/
def MessageTokenExpired : Message := ⟨"jwt.token.expired", ErrTokenExpired.Error⟩
/-- The variable `MessageTokenParseFail`. -/
def MessageTokenParseFail : Message := ⟨"jwt.token.parse.failed", ErrTokenParseFail.Error⟩
/-- The variable `MessageUnSupportSigningMethod`. -/
def MessageUnSupportSigningMethod : Message :=
  ⟨"jwt.token.signing.method", ErrUnSupportSigningMethod.Error⟩
/-- The variable `MessageSignTokenFailed`. -/
def MessageSignTokenFailed : Message := ⟨"jwt.token.sign.failed", ErrSignTokenFailed.Error⟩

/-- The `*i18n.I18n` carried by a `context.Context` (`i18n.FromContext(ctx)`):
its go-i18n localizer, `none` standing for a localization error. -/
structure I18n where
  localizer : Message → Option String

/-- The method `I18n.LocalizeT` of i18n.go: the empty string for a nil message,
the localized text, or the message identifier when localization fails. -/
def I18n.LocalizeT (i : I18n) (message : Option Message) : String :=
  match message with
  | none => ""
  | some m =>
    match i.localizer m with
    | some rp => rp
    | none => m.ID

/-! ## golang-jwt: signing methods, keys, claims, tokens -/

/-- A value of the interface `jwt.SigningMethod`, compared by identity as Go
compares interface values.  The first fourteen are the instances that
golang-jwt/jwt/v4 registers (`jwt.SigningMethodHS256`, ...); `custom` is any
other instance, which `WithSigningMethod` accepts as well: its identity `id`,
the name that its `Alg()` returns, and whether its dynamic type is
`*jwt.SigningMethodHMAC`. -/
inductive SigningMethod where
  | HS256 | HS384 | HS512
  | RS256 | RS384 | RS512
  | ES256 | ES384 | ES512
  | PS256 | PS384 | PS512
  | EdDSA | NONE
  | custom (id : Nat) (alg : String) (hmac : Bool)
  deriving DecidableEq, Repr

/-- The method `Alg()`. -/
def SigningMethod.Alg : SigningMethod → String
  | .HS256 => "HS256" | .HS384 => "HS384" | .HS512 => "HS512"
  | .RS256 => "RS256" | .RS384 => "RS384" | .RS512 => "RS512"
  | .ES256 => "ES256" | .ES384 => "ES384" | .ES512 => "ES512"
  | .PS256 => "PS256" | .PS384 => "PS384" | .PS512 => "PS512"
  | .EdDSA => "EdDSA" | .NONE => "none"
  | .custom _ alg _ => alg

/-- The function `jwt.GetSigningMethod(alg)`, over the registry as the package
initialises it (the repository registers no method); `none` is the nil
method. -/
def GetSigningMethod (alg : String) : Option SigningMethod :=
  [SigningMethod.HS256, .HS384, .HS512, .RS256, .RS384, .RS512, .ES256, .ES384,
    .ES512, .PS256, .PS384, .PS512, .EdDSA, .NONE].find? (fun m => m.Alg == alg)

/-- The type assertion `t.Method.(*jwt.SigningMethodHMAC)`. -/
def SigningMethod.isHMAC : SigningMethod → Bool
  | .HS256 | .HS384 | .HS512 => true
  | .custom _ _ hmac => hmac
  | _ => false

/-- A key (`any` in Go): a byte slice, or a value of any other type. -/
inductive Key where
  | bytes (b : String)
  | other (tag : String)
  deriving DecidableEq, Repr

/-- A value of a token header (`any` in Go): a string, or any other value,
identified by its JSON text. -/
inductive HeaderValue where
  | str (s : String)
  | other (tag : String)
  deriving DecidableEq, Repr

/-- A token header `map[string]any`, as an association list. -/
abbrev Header := List (String × HeaderValue)

/-- The lookup `h[k]`. -/
def Header.get : Header → String → Option HeaderValue
  | [], _ => none
  | (k1, v) :: rest, k => if k1 = k then some v else Header.get rest k

/-- The assignment `h[k] = v`. -/
def Header.set : Header → String → HeaderValue → Header
  | [], k, v => [(k, v)]
  | (k1, v1) :: rest, k, v =>
    if k1 = k then (k, v) :: rest else (k1, v1) :: Header.set rest k v

/-- The variable `jwt.TimePrecision` (its default, one second). -/
def TimePrecision : Duration := Second

/-- The function `jwt.NewNumericDate(t)`: `t` truncated to `TimePrecision`. -/
def NewNumericDate (t : Time) : Time := t.Truncate TimePrecision

/-- A Go `string` that reaches the JSON codec of the claims: a sequence of
bytes, which need not be valid UTF-8.  `utf8 s` is the string whose bytes are
the UTF-8 encoding of the text `s`; `raw b` is a string whose bytes `b` are not
valid UTF-8 (`encoding/json` writes it with replacement characters). -/
inductive GoString where
  | utf8 (s : String)
  | raw (b : List Nat)
  deriving DecidableEq, Repr

/-- The function `utf8.ValidString`. -/
def GoString.isUTF8 : GoString → Bool
  | .utf8 _ => true
  | .raw _ => false

/-- The type `jwt.RegisteredClaims`; a nil `*NumericDate` is `none`. -/
structure RegisteredClaims where
  Issuer : GoString
  Subject : GoString
  Audience : List String
  ExpiresAt : Option Time
  NotBefore : Option Time
  IssuedAt : Option Time
  ID : String
  deriving DecidableEq, Repr

/-- The type `jwt.Token`. -/
structure Token where
  Raw : String
  Method : SigningMethod
  Header : Header
  Claims : RegisteredClaims
  Signature : String
  Valid : Bool
  deriving DecidableEq, Repr

/-- The type `jwt.Keyfunc`. -/
abbrev Keyfunc := Token → Except GoError Key

/-- The primitives of golang-jwt that the embedding does not open: the segment
codec (`json.Marshal` followed by `EncodeSegment`, and back) and the
`Sign`/`Verify` methods of the signing methods. -/
structure Lib where
  encodeHeader : Header → Except GoError String
  encodeClaims : RegisteredClaims → Except GoError String
  decodeHeader : String → Option Header
  decodeClaims : String → Option RegisteredClaims
  Sign : SigningMethod → String → Key → Except GoError String
  Verify : SigningMethod → String → String → Key → Option GoError

/-- The call `strings.Split(s, ".")` on the characters of `s`. -/
def splitOnDot : List Char → List (List Char)
  | [] => [[]]
  | c :: cs =>
    match splitOnDot cs with
    | [] => [[c]]
    | seg :: rest => if c = '.' then [] :: seg :: rest else (c :: seg) :: rest

/-- The function `jwt.NewWithClaims(method, claims)`. -/
def NewWithClaims (method : SigningMethod) (claims : RegisteredClaims) : Token :=
  { Raw := "", Method := method,
    Header := [("typ", .str "JWT"), ("alg", .str method.Alg)],
    Claims := claims, Signature := "", Valid := false }

/-- The method `Token.SigningString()`. -/
def Token.SigningString (lib : Lib) (t : Token) : Except GoError String :=
  match lib.encodeHeader t.Header with
  | .error err => .error err
  | .ok header =>
    match lib.encodeClaims t.Claims with
    | .error err => .error err
    | .ok claim => .ok (header ++ "." ++ claim)

/-- The method `Token.SignedString(key)`. -/
def Token.SignedString (lib : Lib) (t : Token) (key : Key) : Except GoError String :=
  match t.SigningString lib with
  | .error err => .error err
  | .ok sstr =>
    match lib.Sign t.Method sstr key with
    | .error err => .error err
    | .ok sig => .ok (sstr ++ "." ++ sig)

/-- The method `Parser.ParseUnverified`: the token and the three segments
`parts`, or the validation error. -/
def ParseUnverified (lib : Lib) (tokenString : String) :
    Except ValidationError (Token × String × String × String) :=
  match (splitOnDot tokenString.data).map String.mk with
  | [p0, p1, p2] =>
    match lib.decodeHeader p0 with
    | none => .error ⟨ValidationErrorMalformed, "header segment does not decode"⟩
    | some header =>
      match lib.decodeClaims p1 with
      | none => .error ⟨ValidationErrorMalformed, "claims segment does not decode"⟩
      | some claims =>
        match header.get "alg" with
        | some (.str alg) =>
          match GetSigningMethod alg with
          | none =>
            .error ⟨ValidationErrorUnverifiable, "signing method (alg) is unavailable."⟩
          | some method =>
            .ok ({ Raw := tokenString, Method := method, Header := header,
                   Claims := claims, Signature := "", Valid := false }, p0, p1, p2)
        | _ => .error ⟨ValidationErrorUnverifiable, "signing method (alg) is unspecified."⟩
  | _ => .error ⟨ValidationErrorMalformed, "token contains an invalid number of segments"⟩

/-- The helper `verifyExp(exp, now, required)`. -/
def verifyExp (exp : Option Time) (now : Time) (required : Bool) : Bool :=
  match exp with
  | none => !required
  | some e => now.Before e

/-- The helper `verifyIat(iat, now, required)`. -/
def verifyIat (iat : Option Time) (now : Time) (required : Bool) : Bool :=
  match iat with
  | none => !required
  | some i => now.After i || now.Equal i

/-- The helper `verifyNbf(nbf, now, required)`. -/
def verifyNbf (nbf : Option Time) (now : Time) (required : Bool) : Bool :=
  match nbf with
  | none => !required
  | some n => now.After n || now.Equal n

/-- The bit field built by `RegisteredClaims.Valid()`, the reading of
`TimeFunc()` being `now`. -/
def RegisteredClaims.validErrors (c : RegisteredClaims) (now : Time) : Nat :=
  let e0 := if !verifyExp c.ExpiresAt now false then ValidationErrorExpired else 0
  let e1 := if !verifyIat c.IssuedAt now false then e0 ||| ValidationErrorIssuedAt else e0
  if !verifyNbf c.NotBefore now false then e1 ||| ValidationErrorNotValidYet else e1

/-- The method `RegisteredClaims.Valid()`; `none` is the nil error. -/
def RegisteredClaims.Valid (c : RegisteredClaims) (now : Time) : Option ValidationError :=
  if c.validErrors now = 0 then none
  else some ⟨c.validErrors now, "claims are not valid at this time"⟩

/-- The function `jwt.ParseWithClaims(tokenString, claims, keyFunc)` (the default
parser: claims are validated, no list of valid methods); `now` is the clock
reading taken by the claims validation.  The claims are validated, then the
signature is verified, and the bits of both failures are merged (releases up
to v4.5.0; later releases of v4 verify the signature first and stop there: the
two agree whenever at most one of the two checks fails). -/
def ParseWithClaims (lib : Lib) (tokenString : String) (keyFunc : Option Keyfunc)
    (now : Time) : Except GoError Token :=
  match ParseUnverified lib tokenString with
  | .error ve => .error (.validation ve)
  | .ok (token, p0, p1, p2) =>
    match keyFunc with
    | none => .error (.validation ⟨ValidationErrorUnverifiable, "no Keyfunc was provided."⟩)
    | some kf =>
      match kf token with
      | .error (.validation ve) => .error (.validation ve)
      | .error err => .error (.validation ⟨ValidationErrorUnverifiable, err.Error⟩)
      | .ok key =>
        let vErr : ValidationError :=
          match token.Claims.Valid now with
          | some e => e
          | none => ⟨0, ""⟩
        let token := { token with Signature := p2 }
        let vErr : ValidationError :=
          match lib.Verify token.Method (p0 ++ "." ++ p1) token.Signature key with
          | some err => ⟨vErr.Errors ||| ValidationErrorSignatureInvalid, err.Error⟩
          | none => vErr
        if vErr.Errors = 0 then .ok { token with Valid := true }
        else .error (.validation vErr)

/-! ## `authn/jwt/store.go`, `authn/jwt/token.go` -/

/-- The outcome of running a Go function: it returns, or it panics (a
nil-pointer dereference). -/
inductive Run (α : Type) where
  | ret (a : α)
  | panicked
  deriving Repr

/-- The interface `Storer`, over the state `σ` of the backend.  Each operation is
given the instant at which the backend serves it and yields the new state. -/
structure Storer (σ : Type) where
  Set : σ → Time → String → Duration → Option GoError × σ
  Delete : σ → Time → String → Except GoError Bool × σ
  Check : σ → Time → String → Except GoError Bool × σ
  Close : σ → Option GoError × σ

/-- The type `tokenInfo` of token.go (`Type_` is its field `Type`). -/
structure tokenInfo where
  Token : String
  Type_ : String
  ExpiresAt : Int
  deriving DecidableEq, Repr

/-- The method `tokenInfo.GetToken`. -/
def tokenInfo.GetToken (t : tokenInfo) : String := t.Token
/-- The method `tokenInfo.GetTokenType`. -/
def tokenInfo.GetTokenType (t : tokenInfo) : String := t.Type_
/-- The method `tokenInfo.GetExpiresAt`. -/
def tokenInfo.GetExpiresAt (t : tokenInfo) : Int := t.ExpiresAt

/-! ## `authn/jwt/jwt.go` -/

/-- The type `options` of jwt.go; a nil `keyfunc` or `tokenHeader` is `none`. -/
structure options where
  signingMethod : SigningMethod
  signingKey : Key
  keyfunc : Option Keyfunc
  issuer : GoString
  expired : Duration
  tokenType : String
  tokenHeader : Option Header

/-- The variable `defaultOptions`. -/
def defaultOptions : options :=
  { tokenType := "Bearer",
    expired := 2 * Hour,
    signingMethod := .HS256,
    signingKey := .bytes defaultKey,
    keyfunc := some (fun t =>
      if !t.Method.isHMAC then .error ErrTokenInvalid
      else .ok (.bytes defaultKey)),
    issuer := .utf8 "",
    tokenHeader := none }

/-- The type `Option` of jwt.go (`func(*options)`). -/
abbrev OptionFn := options → options

/-- The option `WithSigningMethod`. -/
def WithSigningMethod (method : SigningMethod) : OptionFn :=
  fun o => { o with signingMethod := method }

/-- The option `WithIssuer`. -/
def WithIssuer (issuer : GoString) : OptionFn :=
  fun o => { o with issuer := issuer }

/-- The option `WithSigningKey`. -/
def WithSigningKey (key : Key) : OptionFn :=
  fun o => { o with signingKey := key }

/-- The option `WithKeyfunc`. -/
def WithKeyfunc (keyFunc : Option Keyfunc) : OptionFn :=
  fun o => { o with keyfunc := keyFunc }

/-- The option `WithExpired`. -/
def WithExpired (expired : Duration) : OptionFn :=
  fun o => { o with expired := expired }

/-- The option `WithTokenHeader`. -/
def WithTokenHeader (header : Option Header) : OptionFn :=
  fun o => { o with tokenHeader := header }

/-- The type `JWTAuth`; a nil `store` is `none`. -/
structure JWTAuth (σ : Type) where
  opts : options
  store : Option (Storer σ)

/-- The constructor `New(store, opts...)`. -/
def New {σ : Type} (store : Option (Storer σ)) (opts : List OptionFn) : JWTAuth σ :=
  { opts := opts.foldl (fun o opt => opt o) defaultOptions, store := store }

/-- The request context, as far as jwt.go uses it: the `*i18n.I18n` that
`i18n.FromContext(ctx)` yields (the instance stored in the context, or a fresh
`i18n.New()` when there is none). -/
structure Context where
  i18n : I18n

/-- The function `i18n.FromContext`. -/
def FromContext (ctx : Context) : I18n := ctx.i18n

/-- The token that `Sign` builds before signing it (jwt.go, lines 139-163):
the claims computed from the single clock reading `now`, and the configured
header fields stamped on the header. -/
def Sign.token {σ : Type} (a : JWTAuth σ) (now : Time) (userID : GoString) : Token :=
  let expiresAt := now.Add a.opts.expired
  let token := NewWithClaims a.opts.signingMethod
    { Issuer := a.opts.issuer,
      IssuedAt := some (NewNumericDate now),
      ExpiresAt := some (NewNumericDate expiresAt),
      NotBefore := some (NewNumericDate now),
      Subject := userID,
      Audience := [],
      ID := "" }
  match a.opts.tokenHeader with
  | some header => { token with Header := header.foldl (fun h kv => h.set kv.1 kv.2) token.Header }
  | none => token

/-- The method `JWTAuth.Sign`, `now` being the reading of `time.Now()`. -/
def Sign {σ : Type} (lib : Lib) (a : JWTAuth σ) (ctx : Context) (now : Time)
    (userID : GoString) : Except GoError tokenInfo :=
  let expiresAt := now.Add a.opts.expired
  let token := Sign.token a now userID
  match token.SignedString lib a.opts.signingKey with
  | .error _ =>
    .error (Unauthorized reason ((FromContext ctx).LocalizeT (some MessageSignTokenFailed)))
  | .ok refreshToken =>
    .ok { ExpiresAt := expiresAt.Unix, Type_ := a.opts.tokenType, Token := refreshToken }

/-- The method `JWTAuth.parseToken`, `now` being the clock reading of the claims
validation. -/
def parseToken {σ : Type} (lib : Lib) (a : JWTAuth σ) (ctx : Context) (now : Time)
    (refreshToken : String) : Except GoError RegisteredClaims :=
  match ParseWithClaims lib refreshToken a.opts.keyfunc now with
  | .error err =>
    match err with
    | .validation ve =>
      if ve.Errors &&& ValidationErrorMalformed ≠ 0 then
        .error (Unauthorized reason ((FromContext ctx).LocalizeT (some MessageTokenInvalid)))
      else if ve.Errors &&& (ValidationErrorExpired ||| ValidationErrorNotValidYet) ≠ 0 then
        .error (Unauthorized reason ((FromContext ctx).LocalizeT (some MessageTokenExpired)))
      else
        .error (Unauthorized reason ((FromContext ctx).LocalizeT (some MessageTokenParseFail)))
    | _ => .error (Unauthorized reason err.Error)
  | .ok token =>
    if !token.Valid then
      .error (Unauthorized reason ((FromContext ctx).LocalizeT (some MessageTokenInvalid)))
    else if token.Method ≠ a.opts.signingMethod then
      .error (Unauthorized reason
        ((FromContext ctx).LocalizeT (some MessageUnSupportSigningMethod)))
    else .ok token.Claims

/-- The method `JWTAuth.callStore`. -/
def callStore {σ : Type} (a : JWTAuth σ)
    (fn : Storer σ → σ → Run (Option GoError × σ)) (s : σ) : Run (Option GoError × σ) :=
  match a.store with
  | some store => fn store s
  | none => .ret (none, s)

/-- The method `JWTAuth.Destroy`.  `now` is the clock reading of the claims
validation, `nowUntil` the reading taken by `time.Until`, `tSet` the instant at
which the backend serves `Set`, `s` the state of the backend. -/
def Destroy {σ : Type} (lib : Lib) (a : JWTAuth σ) (ctx : Context)
    (now nowUntil tSet : Time) (s : σ) (refreshToken : String) :
    Run (Option GoError × σ) :=
  match parseToken lib a ctx now refreshToken with
  | .error err => .ret (some err, s)
  | .ok claims =>
    let store := fun (store : Storer σ) (s : σ) =>
      match claims.ExpiresAt with
      | none => Run.panicked
      | some exp =>
        let expired := Until exp nowUntil
        Run.ret (store.Set s tSet refreshToken expired)
    callStore a store s

/-- The method `JWTAuth.ParseClaims`.  `now` is the clock reading of the claims
validation, `tCheck` the instant at which the backend serves `Check`, `s` the
state of the backend. -/
def ParseClaims {σ : Type} (lib : Lib) (a : JWTAuth σ) (ctx : Context)
    (now tCheck : Time) (s : σ) (refreshToken : String) :
    Run (Except GoError RegisteredClaims × σ) :=
  if refreshToken = "" then
    .ret (.error (Unauthorized reason ((FromContext ctx).LocalizeT (some MessageTokenInvalid))), s)
  else
    match parseToken lib a ctx now refreshToken with
    | .error err => .ret (.error err, s)
    | .ok claims =>
      let store := fun (store : Storer σ) (s : σ) =>
        match store.Check s tCheck refreshToken with
        | (.error err, s1) => Run.ret (some err, s1)
        | (.ok exists_, s1) =>
          if exists_ then
            Run.ret (some (Unauthorized reason
              ((FromContext ctx).LocalizeT (some MessageTokenInvalid))), s1)
          else Run.ret (none, s1)
      match callStore a store s with
      | .panicked => .panicked
      | .ret (some err, s1) => .ret (.error err, s1)
      | .ret (none, s1) => .ret (.ok claims, s1)

/-- The method `JWTAuth.Release`. -/
def Release {σ : Type} (a : JWTAuth σ) (s : σ) : Run (Option GoError × σ) :=
  callStore a (fun store s => Run.ret (store.Close s)) s

/-! ## `authn/jwt/store/redis/redis.go` -/

/-- The commands of the go-redis client that `Store` uses, over the state `ρ`
of the server: `Set(key, value, expiration)`, `Del(key)`, `Exists(key)` (each
with its `Err()` and `Val()`), and `Close`. -/
structure RedisClient (ρ : Type) where
  Set : ρ → Time → String → String → Duration → Option GoError × ρ
  Del : ρ → Time → String → Except GoError Int × ρ
  Exists : ρ → Time → String → Except GoError Int × ρ
  Close : ρ → Option GoError × ρ

/-- The type `Store` of redis.go. -/
structure Store (ρ : Type) where
  cli : RedisClient ρ
  pfx : String

/-- The method `Store.wrapperKey`. -/
def Store.wrapperKey {ρ : Type} (st : Store ρ) (key : String) : String := st.pfx ++ key

/-- The method `Store.Set`. -/
def Store.Set {ρ : Type} (st : Store ρ) (r : ρ) (tAt : Time) (accessToken : String)
    (expiration : Duration) : Option GoError × ρ :=
  st.cli.Set r tAt (st.wrapperKey accessToken) "1" expiration

/-- The method `Store.Delete`. -/
def Store.Delete {ρ : Type} (st : Store ρ) (r : ρ) (tAt : Time) (accessToken : String) :
    Except GoError Bool × ρ :=
  match st.cli.Del r tAt (st.wrapperKey accessToken) with
  | (.error err, r1) => (.error err, r1)
  | (.ok val, r1) => (.ok (decide (val > 0)), r1)

/-- The method `Store.Check`. -/
def Store.Check {ρ : Type} (st : Store ρ) (r : ρ) (tAt : Time) (accessToken : String) :
    Except GoError Bool × ρ :=
  match st.cli.Exists r tAt (st.wrapperKey accessToken) with
  | (.error err, r1) => (.error err, r1)
  | (.ok val, r1) => (.ok (decide (val > 0)), r1)

/-- The method `Store.Close`. -/
def Store.Close {ρ : Type} (st : Store ρ) (r : ρ) : Option GoError × ρ := st.cli.Close r

/-- The redis `Store` as a `Storer`. -/
def Store.toStorer {ρ : Type} (st : Store ρ) : Storer ρ :=
  { Set := st.Set, Delete := st.Delete, Check := st.Check, Close := st.Close }

/-! ## contracts of the collaborators -/

/-- A segment has no `.` in it (the base64url alphabet). -/
def dotFree (seg : String) : Prop := '.' ∉ seg.data

/-- The contract of the golang-jwt primitives: an encoded segment has no dot and
decodes to the value it encodes (claims with numeric dates at `TimePrecision`;
their subject and issuer come back unchanged when they are valid UTF-8, and
are whatever the JSON codec made of them otherwise), a signature has no dot,
and an HMAC signature verifies under the key that made it. -/
structure Lib.Lawful (lib : Lib) : Prop where
  header_decode : ∀ h seg, lib.encodeHeader h = .ok seg →
    dotFree seg ∧ lib.decodeHeader seg = some h
  claims_decode : ∀ c seg, lib.encodeClaims c = .ok seg →
    c.ExpiresAt.all (fun t => NewNumericDate t = t) →
    c.NotBefore.all (fun t => NewNumericDate t = t) →
    c.IssuedAt.all (fun t => NewNumericDate t = t) →
    dotFree seg ∧
      ∃ sub iss, lib.decodeClaims seg = some { c with Subject := sub, Issuer := iss } ∧
        (c.Subject.isUTF8 = true → sub = c.Subject) ∧
        (c.Issuer.isUTF8 = true → iss = c.Issuer)
  sign_dotFree : ∀ m sstr key sig, lib.Sign m sstr key = .ok sig → dotFree sig
  hmac_verify : ∀ m sstr k sig, m.isHMAC = true →
    lib.Sign m sstr (.bytes k) = .ok sig → lib.Verify m sstr sig (.bytes k) = none

/-- The configuration verifies what it signs: the key function resolves, for
every token that declares the configured method, a key under which the
signatures made with the signing key verify. -/
def options.KeysAgree (lib : Lib) (o : options) : Prop :=
  ∃ kf, o.keyfunc = some kf ∧
    ∀ tok : Token, tok.Method = o.signingMethod →
      ∃ key, kf tok = .ok key ∧
        ∀ sstr sig, lib.Sign o.signingMethod sstr o.signingKey = .ok sig →
          lib.Verify o.signingMethod sstr sig key = none

/-- The configured signing method is the instance that the registry of
golang-jwt holds under its name (`jwt.GetSigningMethod(m.Alg()) == m`). -/
def options.methodRegistered (o : options) : Prop :=
  GetSigningMethod o.signingMethod.Alg = some o.signingMethod

/-- The configured header fields do not set the "alg" field of the header. -/
def options.headerKeepsAlg (o : options) : Prop :=
  ∀ h, o.tokenHeader = some h → ∀ kv ∈ h, kv.1 ≠ "alg"

/-- Read-your-own-write with expiry: once `Set` has stored a record without
error, a `Check` of the same key served no earlier than the `Set` and before the
TTL has elapsed reports the record. -/
def Storer.ReadYourWrite {σ : Type} (st : Storer σ) : Prop :=
  ∀ s tSet key ttl s1, st.Set s tSet key ttl = (none, s1) →
    ∀ tCheck, tSet ≤ tCheck → tCheck < tSet + ttl →
      (st.Check s1 tCheck key).1 = .ok true

/-! ## executable instances, for evaluation on concrete inputs -/

/-- Code-book encoding: the segment listed for `a`. -/
def bookEncode {α : Type} [DecidableEq α] : List (α × String) → α → Option String
  | [], _ => none
  | (x, seg) :: rest, a => if x = a then some seg else bookEncode rest a

/-- Code-book decoding: the value listed for the segment. -/
def bookDecode {α : Type} : List (α × String) → String → Option α
  | [], _ => none
  | (x, seg) :: rest, sg => if seg = sg then some x else bookDecode rest sg

/-- A code book is well formed: its segments are distinct and have no dot. -/
def bookOK {α : Type} (book : List (α × String)) : Bool :=
  decide ((book.map (fun e => e.2)).Nodup) &&
    book.all (fun e => e.2.data.all (fun c => c != '.'))

/-- The toy message authentication code of `bookLib`: method, key and message,
without their dots. -/
def mac (m : SigningMethod) (key sstr : String) : String :=
  String.mk ((m.Alg ++ "|" ++ key ++ "|" ++ sstr).data.filter (fun c => c != '.'))

/-- A small executable instance of `Lib`: segments come from two code books,
the HMAC methods sign byte keys with `mac`, every other method fails. -/
def bookLib (headers : List (Header × String))
    (claims : List (RegisteredClaims × String)) : Lib :=
  { encodeHeader := fun h =>
      match bookEncode headers h with
      | some seg => .ok seg
      | none => .error (.other "json: unsupported value")
    encodeClaims := fun c =>
      match bookEncode claims c with
      | some seg => .ok seg
      | none => .error (.other "json: unsupported value")
    decodeHeader := bookDecode headers
    decodeClaims := bookDecode claims
    Sign := fun m sstr key =>
      match m.isHMAC, key with
      | true, .bytes k => .ok (mac m k sstr)
      | _, _ => .error (.other "key is of invalid type")
    Verify := fun m sstr sig key =>
      match m.isHMAC, key with
      | true, .bytes k =>
        if sig = mac m k sstr then none else some (.other "signature is invalid")
      | _, _ => some (.other "key is of invalid type") }

/-- An in-memory store: the records `(key, deadline)`; a record is visible
strictly before its deadline. -/
def memStore : Storer (List (String × Time)) :=
  { Set := fun s tAt key ttl => (none, (key, tAt + ttl) :: s.filter (fun r => r.1 != key))
    Delete := fun s tAt key =>
      (.ok (s.any (fun r => r.1 == key && decide (tAt < r.2))), s.filter (fun r => r.1 != key))
    Check := fun s tAt key => (.ok (s.any (fun r => r.1 == key && decide (tAt < r.2))), s)
    Close := fun s => (none, s) }

/-- A call received by `logStore`. -/
inductive StoreCall where
  | Set (key : String) (ttl : Duration)
  | Delete (key : String)
  | Check (key : String)
  | Close
  deriving DecidableEq, Repr

/-- A store that only records the calls it receives, in order; it holds no
record. -/
def logStore : Storer (List StoreCall) :=
  { Set := fun s _ key ttl => (none, s ++ [.Set key ttl])
    Delete := fun s _ key => (.ok false, s ++ [.Delete key])
    Check := fun s _ key => (.ok false, s ++ [.Check key])
    Close := fun s => (none, s ++ [.Close]) }

/-- A redis client that only records the `Set` commands it receives: key,
value and expiration. -/
def logClient : RedisClient (List (String × String × Duration)) :=
  { Set := fun r _ key value expiration => (none, r ++ [(key, value, expiration)])
    Del := fun r _ _ => (.ok 0, r)
    Exists := fun r _ _ => (.ok 0, r)
    Close := fun r => (none, r) }

/-- A store whose backend is unreachable: every operation fails with `e`. -/
def downStore (e : GoError) : Storer Unit :=
  { Set := fun s _ _ _ => (some e, s)
    Delete := fun s _ _ => (.error e, s)
    Check := fun s _ _ => (.error e, s)
    Close := fun s => (some e, s) }

/-! ## concrete scenarios -/

/-- The header that `NewWithClaims` gives an HS256 token. -/
def hdrHS256 : Header := [("typ", .str "JWT"), ("alg", .str "HS256")]

/-- The header of a token that declares RS256. -/
def hdrRS256 : Header := [("typ", .str "JWT"), ("alg", .str "RS256")]

/-- The header of a token that declares HS384. -/
def hdrHS384 : Header := [("typ", .str "JWT"), ("alg", .str "HS384")]

/-- A clock reading with a sub-second part: 1000.5 s after the epoch. -/
def t0 : Time := 1000 * Second + 500000000

/-- The claims that `Sign` builds for "user-42" at `t0` with the default
options: issued at 1000 s, expiring 7200 s later. -/
def claims42 : RegisteredClaims :=
  { Issuer := .utf8 "", Subject := .utf8 "user-42", Audience := [],
    ExpiresAt := some (8200 * Second), NotBefore := some (1000 * Second),
    IssuedAt := some (1000 * Second), ID := "" }

/-- Claims that expire 10^10 s after the epoch, more than the largest
`time.Duration` (about 9.22 * 10^9 s) after `t0`. -/
def claimsFar : RegisteredClaims :=
  { Issuer := .utf8 "", Subject := .utf8 "user-42", Audience := [],
    ExpiresAt := some (10000000000 * Second), NotBefore := some (1000 * Second),
    IssuedAt := some (1000 * Second), ID := "" }

/-- The claims that `Sign` builds for "user-42" at `t0` when the configured
lifetime is zero. -/
def claimsZero : RegisteredClaims :=
  { Issuer := .utf8 "", Subject := .utf8 "user-42", Audience := [],
    ExpiresAt := some (1000 * Second), NotBefore := some (1000 * Second),
    IssuedAt := some (1000 * Second), ID := "" }

/-- Claims for "user-42" that carry no `expires_at` (and no other date). -/
def claimsNoExp : RegisteredClaims :=
  { Issuer := .utf8 "", Subject := .utf8 "user-42", Audience := [],
    ExpiresAt := none, NotBefore := none, IssuedAt := none, ID := "" }

/-- The instance of `Lib` used on concrete inputs. -/
def refLib : Lib :=
  bookLib [(hdrHS256, "hHS256"), (hdrHS384, "hHS384"), (hdrRS256, "hRS256")]
    [(claims42, "c42"), (claimsFar, "cFar"), (claimsZero, "cZero"), (claimsNoExp, "cNoExp")]

/-- A context whose localizer yields the default text of every message. -/
def ctx0 : Context := ⟨⟨fun m => some m.Other⟩⟩

/-- The default authenticator without a store: `New(nil)`. -/
def auth0 : JWTAuth Unit := New none []

/-- The default authenticator over the in-memory store. -/
def authMem : JWTAuth (List (String × Time)) := New (some memStore) []

/-- The token that `auth0` signs for "user-42" at `t0`. -/
def tok42 : String := "hHS256.c42.HS256|onex(#)666|hHS256c42"

/-- A token correctly signed with the default key that carries `claimsFar`. -/
def tokFar : String := "hHS256.cFar.HS256|onex(#)666|hHS256cFar"

/-- A clock reading 9.5 * 10^9 s after the epoch: later than `t0` by more than
the largest `time.Duration`, and before the expiry of `claimsFar`. -/
def tLate : Time := 9500000000 * Second

/-- The authenticator `New(nil, WithSigningKey([]byte("k2")))`: it signs with
"k2" and verifies with the key of the default key function. -/
def authK2 : JWTAuth Unit := New none [WithSigningKey (.bytes "k2")]

/-- The authenticator `New(nil, WithExpired(0))`. -/
def authZero : JWTAuth Unit := New none [WithExpired 0]

/-- The authenticator `New(nil, WithTokenHeader({"alg": "HS384"}))`. -/
def authAlg : JWTAuth Unit := New none [WithTokenHeader (some [("alg", .str "HS384")])]

/-- The default authenticator over a store whose backend is unreachable. -/
def authDown : JWTAuth Unit := New (some (downStore (.other "dial tcp: connection refused"))) []

/-- A token that declares RS256 and carries `claims42`. -/
def tokRS256 : String := "hRS256.c42.sig"

/-- A token that declares HS384, carries `claims42` and is correctly signed
with the default key under HS384. -/
def tokHS384 : String := "hHS384.c42.HS384|onex(#)666|hHS384c42"

/-- The default authenticator over the store that records its calls. -/
def authLog : JWTAuth (List StoreCall) := New (some logStore) []

/-- The default authenticator over the redis `Store` with key prefix "jwt:" and
the recording client. -/
def authRedis : JWTAuth (List (String × String × Duration)) :=
  New (some (Store.toStorer ⟨logClient, "jwt:"⟩)) []

/-- The last clock reading at which `tok42` is still valid: one nanosecond
before its expiry at 8200 s. -/
def tLast : Time := 8200 * Second - 1

/-- The authenticator `New(nil, WithExpired(-time.Hour))`. -/
def authNeg : JWTAuth Unit := New none [WithExpired (-Hour)]

/-- A state of the in-memory store that holds the revocation record of
`tok42`, as `Destroy` at `t0` leaves it. -/
def revoked42 : List (String × Time) := [(tok42, 8200 * Second)]

/-- A token correctly signed with the default key under HS256 whose claims carry
no `expires_at`. -/
def tokNoExp : String := "hHS256.cNoExp.HS256|onex(#)666|hHS256cNoExp"

/-- An instance of `*jwt.SigningMethodHMAC` built by the caller with the name
"HS256": not the instance `jwt.SigningMethodHS256` of the registry. -/
def customHS256 : SigningMethod := .custom 1 "HS256" true

/-- The authenticator `New(nil, WithSigningMethod(customHS256))`. -/
def authCustom : JWTAuth Unit := New none [WithSigningMethod customHS256]

/-- The claims that `Sign` builds at `t0`, with the default options, for the
subject of the single byte 0xff, which is not valid UTF-8. -/
def claimsRaw : RegisteredClaims :=
  { Issuer := .utf8 "", Subject := .raw [255], Audience := [],
    ExpiresAt := some (8200 * Second), NotBefore := some (1000 * Second),
    IssuedAt := some (1000 * Second), ID := "" }

/-- The claims `claimsRaw` after `encoding/json`: the invalid byte of the
subject has become the replacement character U+FFFD. -/
def claimsFFFD : RegisteredClaims :=
  { Issuer := .utf8 "", Subject := .utf8 "\uFFFD", Audience := [],
    ExpiresAt := some (8200 * Second), NotBefore := some (1000 * Second),
    IssuedAt := some (1000 * Second), ID := "" }

/-- The instance `refLib` with the segment "cFFFD", which encodes `claimsRaw`
as `encoding/json` does and decodes to `claimsFFFD`. -/
def jsonLib : Lib :=
  { refLib with
    encodeClaims := fun c => if c = claimsRaw then .ok "cFFFD" else refLib.encodeClaims c
    decodeClaims := fun seg => if seg = "cFFFD" then some claimsFFFD else refLib.decodeClaims seg }

end jwt

/-!
LiangNing7/pkg : the code generator (`id/code.go`)

A shallow embedding of `NewCode`.  A `uint64` is a natural number reduced
modulo 2^64, a `byte` a natural number reduced modulo 256, an `int` an
integer; a rune is a Unicode character.  A run-time panic (division by zero,
index out of range, negative length given to `make`) is the result `none`.
-/

namespace id

/-- The type `CodeOptions`.  Its declaration is not among the sources: the
fields are those that `NewCode` reads, with the types that its uses of them
require (`chars` is indexed and appended to a `[]rune`, `n1`, `n2` and `l` are
converted from `int`, `salt` is added to a `uint64`). -/
structure CodeOptions where
  chars : List Char
  n1 : Int
  n2 : Int
  l : Int
  salt : Nat

/-- The conversion `uint64(n)` of an `int`. -/
def uint64 (n : Int) : Nat := (n % 18446744073709551616).toNat

/-- The conversion `byte(n)` of a natural number. -/
def byte (n : Nat) : Nat := n % 256

/-- The conversion `byte(n)` of an `int`. -/
def byteOfInt (n : Int) : Nat := (n % 256).toNat

/-- The loop `for i := i0; i < i0 + n; i++ { body }` over a state; `none` as
soon as the body panics. -/
def loop {σ : Type} (body : σ → Nat → Option σ) : Nat → Nat → σ → Option σ
  | 0, _, s => some s
  | n + 1, i, s =>
    match body s i with
    | none => none
    | some s1 => loop body n (i + 1) s1

/-- The body of the first loop of `NewCode` (lines 18-22), on the state
`(slIdx, id)`: the two assignments to `slIdx[i]` and the division of `id`. -/
def spread (charLen : Nat) (st : List Nat × Nat) (i : Nat) : Option (List Nat × Nat) :=
  let slIdx := st.1
  let id := st.2
  if charLen = 0 then none
  else if slIdx.length ≤ i then none
  else
    let slIdx := slIdx.set i (byte (id % charLen))
    match slIdx[i]?, slIdx[0]? with
    | some x, some x0 =>
      if byte charLen = 0 then none
      else some (slIdx.set i (byte (x + byte (byte i * x0)) % byte charLen), id / charLen)
    | _, _ => none

/-- The body of the second loop of `NewCode` (lines 25-28), on the state
`code`. -/
def confuse (ops : CodeOptions) (slIdx : List Nat) (code : List Char) (i : Nat) :
    Option (List Char) :=
  if byteOfInt ops.l = 0 then none
  else
    let idx := byte (byte i * byteOfInt ops.n2) % byteOfInt ops.l
    match slIdx[idx]? with
    | none => none
    | some k =>
      match ops.chars[k]? with
      | none => none
      | some c => some (code ++ [c])

/-- The function `NewCode(id, options...)`; `dflt` is the value of
`getCodeOptionsOrSetDefault(nil)`, which is not among the sources. -/
def NewCode (dflt : CodeOptions) (id : Nat) (options : List (CodeOptions → CodeOptions)) :
    Option String :=
  let ops := options.foldl (fun o f => f o) dflt
  let id := (id * uint64 ops.n1 + ops.salt) % 18446744073709551616
  if ops.l < 0 then none
  else
    let slIdx := List.replicate ops.l.toNat 0
    let charLen := ops.chars.length
    match loop (spread charLen) ops.l.toNat 0 (slIdx, id) with
    | none => none
    | some (slIdx, _) =>
      match loop (confuse ops slIdx) ops.l.toNat 0 [] with
      | none => none
      | some code => some (String.mk code)

/-- Code options for evaluation: 32 characters, `n1 = 17`, `n2 = 5`, `l = 8`,
`salt = 123567369`. -/
def sampleOptions : CodeOptions :=
  { chars := "0123456789ABCDEFGHJKLMNPQRSTUVWX".data, n1 := 17, n2 := 5, l := 8,
    salt := 123567369 }

end id

namespace jwt

/-! ## auxiliary lemmas -/

theorem splitOnDot_ne_nil (l : List Char) : splitOnDot l ≠ [] := by
  cases l with
  | nil => simp [splitOnDot]
  | cons c cs =>
    simp only [splitOnDot]
    split
    · simp
    · split <;> simp

theorem splitOnDot_of_dotFree (l : List Char) (h : '.' ∉ l) : splitOnDot l = [l] := by
  induction l with
  | nil => rfl
  | cons c cs ih =>
    have hc : c ≠ '.' := fun e => h (by simp [e])
    have hcs : '.' ∉ cs := fun e => h (by simp [e])
    simp [splitOnDot, ih hcs, hc]

theorem splitOnDot_append_dot (a b : List Char) (h : '.' ∉ a) :
    splitOnDot (a ++ '.' :: b) = a :: splitOnDot b := by
  induction a with
  | nil =>
    simp only [List.nil_append, splitOnDot]
    cases hb : splitOnDot b with
    | nil => exact absurd hb (splitOnDot_ne_nil b)
    | cons seg rest => simp
  | cons c cs ih =>
    have hc : c ≠ '.' := fun e => h (by simp [e])
    have hcs : '.' ∉ cs := fun e => h (by simp [e])
    simp [splitOnDot, ih hcs, hc]

theorem splitOnDot_three (a b c : String) (ha : dotFree a) (hb : dotFree b) (hc : dotFree c) :
    (splitOnDot (a ++ "." ++ b ++ "." ++ c).data).map String.mk = [a, b, c] := by
  have e : (a ++ "." ++ b ++ "." ++ c).data = a.data ++ '.' :: (b.data ++ '.' :: c.data) := by
    simp [String.data_append]
  rw [e, splitOnDot_append_dot _ _ ha, splitOnDot_append_dot _ _ hb,
    splitOnDot_of_dotFree _ hc]
  rfl

theorem or_sigInvalid_ne_zero (x : Nat) : x ||| ValidationErrorSignatureInvalid ≠ 0 := by
  intro h
  have h2 := congrArg (fun n => Nat.testBit n 2) h
  simp only [Nat.testBit_or, ValidationErrorSignatureInvalid] at h2
  have h3 : Nat.testBit 4 2 = true := by decide
  simp [h3] at h2

theorem validErrors_eq_zero_iff (c : RegisteredClaims) (now : Time) :
    c.validErrors now = 0 ↔
      verifyExp c.ExpiresAt now false = true ∧ verifyIat c.IssuedAt now false = true ∧
        verifyNbf c.NotBefore now false = true := by
  unfold RegisteredClaims.validErrors
  cases verifyExp c.ExpiresAt now false <;> cases verifyIat c.IssuedAt now false <;>
    cases verifyNbf c.NotBefore now false <;> decide

/-- The claims validation succeeds exactly when the reading is strictly before
`ExpiresAt` and not before `IssuedAt` and `NotBefore` (each only when present). -/
theorem validErrors_eq_zero_iff_window (c : RegisteredClaims) (now : Time) :
    c.validErrors now = 0 ↔
      (∀ e, c.ExpiresAt = some e → now < e) ∧ (∀ i, c.IssuedAt = some i → i ≤ now) ∧
        (∀ n, c.NotBefore = some n → n ≤ now) := by
  rw [validErrors_eq_zero_iff]
  have h1 : verifyExp c.ExpiresAt now false = true ↔ ∀ e, c.ExpiresAt = some e → now < e := by
    cases c.ExpiresAt <;> simp [verifyExp, Time.Before]
  have h2 : verifyIat c.IssuedAt now false = true ↔ ∀ i, c.IssuedAt = some i → i ≤ now := by
    cases c.IssuedAt <;> simp [verifyIat, Time.After, Time.Equal]
    constructor
    · rintro (h | h)
      · exact Int.le_of_lt h
      · exact Int.le_of_eq h.symm
    · intro h
      rcases lt_or_eq_of_le h with h | h
      · exact Or.inl h
      · exact Or.inr h.symm
  have h3 : verifyNbf c.NotBefore now false = true ↔ ∀ n, c.NotBefore = some n → n ≤ now := by
    cases c.NotBefore <;> simp [verifyNbf, Time.After, Time.Equal]
    constructor
    · rintro (h | h)
      · exact Int.le_of_lt h
      · exact Int.le_of_eq h.symm
    · intro h
      rcases lt_or_eq_of_le h with h | h
      · exact Or.inl h
      · exact Or.inr h.symm
  rw [h1, h2, h3]

/-- What a successful `ParseWithClaims` consists of. -/
theorem ParseWithClaims_ok_iff (lib : Lib) (tok : String) (keyFunc : Option Keyfunc)
    (now : Time) (t : Token) :
    ParseWithClaims lib tok keyFunc now = .ok t ↔
      ∃ token p0 p1 p2 kf key,
        ParseUnverified lib tok = .ok (token, p0, p1, p2) ∧ keyFunc = some kf ∧
          kf token = .ok key ∧ token.Claims.validErrors now = 0 ∧
          lib.Verify token.Method (p0 ++ "." ++ p1) p2 key = none ∧
          t = { token with Signature := p2, Valid := true } := by
  unfold ParseWithClaims
  constructor
  · intro h
    split at h
    · cases h
    · rename_i token p0 p1 p2 hpu
      split at h
      · cases h
      · rename_i kf
        split at h
        · cases h
        · cases h
        · rename_i key hk
          refine ⟨token, p0, p1, p2, kf, key, hpu, rfl, hk, ?_⟩
          simp only [RegisteredClaims.Valid] at h
          by_cases hv : token.Claims.validErrors now = 0
          · simp only [hv, if_true] at h
            cases hver : lib.Verify token.Method (p0 ++ "." ++ p1) p2 key with
            | none =>
              simp only [hver] at h
              simp at h
              exact ⟨hv, rfl, h.symm⟩
            | some err =>
              simp only [hver] at h
              simp [ValidationErrorSignatureInvalid] at h
          · simp only [hv, if_false] at h
            cases hver : lib.Verify token.Method (p0 ++ "." ++ p1) p2 key with
            | none =>
              simp only [hver] at h
              simp [hv] at h
            | some err =>
              simp only [hver] at h
              simp [or_sigInvalid_ne_zero] at h
  · rintro ⟨token, p0, p1, p2, kf, key, hpu, rfl, hk, hv, hver, rfl⟩
    simp [hpu, hk, RegisteredClaims.Valid, hv, hver]

/-- What a successful `parseToken` consists of: the token decodes, the key
function resolves a key, the claims are valid at `now`, the signature verifies
and the declared method is the configured one. -/
theorem parseToken_ok_iff {σ : Type} (lib : Lib) (a : JWTAuth σ) (ctx : Context)
    (now : Time) (tok : String) (claims : RegisteredClaims) :
    parseToken lib a ctx now tok = .ok claims ↔
      ∃ token p0 p1 p2 kf key,
        ParseUnverified lib tok = .ok (token, p0, p1, p2) ∧ a.opts.keyfunc = some kf ∧
          kf token = .ok key ∧ token.Claims.validErrors now = 0 ∧
          lib.Verify token.Method (p0 ++ "." ++ p1) p2 key = none ∧
          token.Method = a.opts.signingMethod ∧ token.Claims = claims := by
  unfold parseToken
  constructor
  · intro h
    split at h
    · split at h
      · split at h
        · cases h
        · split at h <;> cases h
      · cases h
    · rename_i t ht
      obtain ⟨token, p0, p1, p2, kf, key, hpu, hkf, hk, hv, hver, rfl⟩ :=
        (ParseWithClaims_ok_iff lib tok a.opts.keyfunc now t).1 ht
      simp only [Bool.not_true, Bool.false_eq_true, if_false] at h
      split at h
      · cases h
      · rename_i hm
        simp only [ne_eq, not_not] at hm
        injection h with h
        exact ⟨token, p0, p1, p2, kf, key, hpu, hkf, hk, hv, hver, hm, h⟩
  · rintro ⟨token, p0, p1, p2, kf, key, hpu, hkf, hk, hv, hver, hm, rfl⟩
    have ht := (ParseWithClaims_ok_iff lib tok a.opts.keyfunc now
      { token with Signature := p2, Valid := true }).2
      ⟨token, p0, p1, p2, kf, key, hpu, hkf, hk, hv, hver, rfl⟩
    simp [ht, hm]

/-- Every error of `parseToken` is an `Unauthorized` error with the reason of
the package. -/
theorem parseToken_error_unauthorized {σ : Type} (lib : Lib) (a : JWTAuth σ) (ctx : Context)
    (now : Time) (tok : String) (e : GoError)
    (h : parseToken lib a ctx now tok = .error e) : ∃ msg, e = Unauthorized reason msg := by
  unfold parseToken at h
  split at h
  · split at h
    · split at h
      · injection h with h
        exact ⟨_, h.symm⟩
      · split at h <;> injection h with h <;> exact ⟨_, h.symm⟩
    · injection h with h
      exact ⟨_, h.symm⟩
  · split at h
    · injection h with h
      exact ⟨_, h.symm⟩
    · split at h
      · injection h with h
        exact ⟨_, h.symm⟩
      · cases h

/-- The empty string has one segment, not three: `parseToken` reports it as
malformed, whatever the library primitives. -/
theorem parseToken_empty {σ : Type} (lib : Lib) (a : JWTAuth σ) (ctx : Context) (now : Time) :
    parseToken lib a ctx now "" =
      .error (Unauthorized reason ((FromContext ctx).LocalizeT (some MessageTokenInvalid))) := by
  rfl

/-- A token that `parseToken` accepts at `now` is accepted, with the same
claims, at every later reading that is still before its expiry. -/
theorem parseToken_ok_later {σ : Type} (lib : Lib) (a : JWTAuth σ) (ctx : Context)
    (now now1 : Time) (tok : String) (claims : RegisteredClaims)
    (h : parseToken lib a ctx now tok = .ok claims) (hle : now ≤ now1)
    (hexp : ∀ e, claims.ExpiresAt = some e → now1 < e) :
    parseToken lib a ctx now1 tok = .ok claims := by
  obtain ⟨token, p0, p1, p2, kf, key, hpu, hkf, hk, hv, hver, hm, rfl⟩ :=
    (parseToken_ok_iff lib a ctx now tok claims).1 h
  refine (parseToken_ok_iff lib a ctx now1 tok token.Claims).2
    ⟨token, p0, p1, p2, kf, key, hpu, hkf, hk, ?_, hver, hm, rfl⟩
  rw [validErrors_eq_zero_iff_window] at hv ⊢
  exact ⟨hexp, fun i hi => le_trans (hv.2.1 i hi) hle, fun n hn => le_trans (hv.2.2 n hn) hle⟩

/-- The in-memory store honours read-your-own-write. -/
theorem memStore_readYourWrite : memStore.ReadYourWrite := by
  intro s tSet key ttl s1 hset tCheck _ hlt
  simp only [memStore, Prod.mk.injEq, true_and] at hset
  subst hset
  simp [memStore, hlt]

/-- The difference of two instants that fits in a `time.Duration` is not
saturated. -/
theorem Until_eq_sub (t now : Time) (h1 : minDuration ≤ t - now) (h2 : t - now ≤ maxDuration) :
    Until t now = t - now := by
  unfold Until Time.Sub
  rw [if_neg (not_lt.mpr h1), if_neg (not_lt.mpr h2)]

/-- C1 (amended): with a store that honours read-your-own-write, if `Destroy(t)`
returns no error then `t` carries an `expires_at`, and every later
`ParseClaims(t)` whose clock reading and store lookup fall before `expires_at`
returns the revoked failure and no claims, provided the remaining lifetime
`expires_at - now` at the revocation fits in a `time.Duration`. -/
theorem Destroy_then_ParseClaims_revoked {σ : Type} (lib : Lib) (a : JWTAuth σ)
    (ctx : Context) (st : Storer σ) (hst : a.store = some st) (hryw : st.ReadYourWrite)
    (now nowUntil tSet : Time) (s s1 : σ) (tok : String)
    (hd : Destroy lib a ctx now nowUntil tSet s tok = .ret (none, s1)) :
    ∃ claims exp, parseToken lib a ctx now tok = .ok claims ∧ claims.ExpiresAt = some exp ∧
      ∀ now1 tCheck, nowUntil ≤ tSet → exp - nowUntil ≤ maxDuration →
        now ≤ now1 → now1 < exp → tSet ≤ tCheck → tCheck < exp →
        ∃ s2, ParseClaims lib a ctx now1 tCheck s1 tok =
          .ret (.error (Unauthorized reason
            ((FromContext ctx).LocalizeT (some MessageTokenInvalid))), s2) := by
  unfold Destroy at hd
  cases hp : parseToken lib a ctx now tok with
  | error err => simp [hp] at hd
  | ok claims =>
    simp only [hp, callStore, hst] at hd
    cases hexp : claims.ExpiresAt with
    | none => simp [hexp] at hd
    | some exp =>
      simp only [hexp, Run.ret.injEq] at hd
      refine ⟨claims, exp, rfl, hexp, ?_⟩
      intro now1 tCheck h1 h2 h3 h4 h5 h6
      have hne : tok ≠ "" := by
        intro e
        rw [e, parseToken_empty] at hp
        cases hp
      have hp1 : parseToken lib a ctx now1 tok = .ok claims :=
        parseToken_ok_later lib a ctx now now1 tok claims hp h3
          (fun e he => by rw [hexp] at he; injection he with he; rw [← he]; exact h4)
      have hmin : minDuration ≤ exp - nowUntil := by
        have h0 : (0 : Int) ≤ exp - nowUntil := by linarith
        exact le_trans (by decide) h0
      rw [Until_eq_sub exp nowUntil hmin h2] at hd
      have hchk := hryw s tSet tok (exp - nowUntil) s1 hd tCheck h5 (by linarith)
      cases hc : st.Check s1 tCheck tok with
      | mk r s2 =>
        rw [hc] at hchk
        simp only at hchk
        subst hchk
        exact ⟨s2, by simp [ParseClaims, hne, hp1, callStore, hst, hc]⟩

/-- Witness of C1: the default authenticator over the in-memory store revokes
the token signed for "user-42"; a `ParseClaims` one second later is refused. -/
theorem Destroy_then_ParseClaims_revoked_witness :
    Destroy refLib authMem ctx0 t0 t0 t0 [] tok42 = .ret (none, [(tok42, 8200 * Second)]) ∧
      ∃ s2, ParseClaims refLib authMem ctx0 (t0 + Second) (t0 + Second)
          [(tok42, 8200 * Second)] tok42 =
        .ret (.error (Unauthorized reason
          ((FromContext ctx0).LocalizeT (some MessageTokenInvalid))), s2) := by
  have hd : Destroy refLib authMem ctx0 t0 t0 t0 [] tok42 =
      .ret (none, [(tok42, 8200 * Second)]) := rfl
  refine ⟨hd, ?_⟩
  obtain ⟨claims, exp, hp, hexp, h⟩ :=
    Destroy_then_ParseClaims_revoked refLib authMem ctx0 memStore rfl memStore_readYourWrite
      t0 t0 t0 [] [(tok42, 8200 * Second)] tok42 hd
  have hc : parseToken refLib authMem ctx0 t0 tok42 = .ok claims42 := rfl
  rw [hc] at hp
  injection hp with hp
  subst hp
  have he : exp = 8200 * Second := by
    have h8 : claims42.ExpiresAt = some (8200 * Second) := rfl
    rw [h8] at hexp
    injection hexp with hexp
    exact hexp.symm
  subst he
  exact h (t0 + Second) (t0 + Second) (le_refl _) (by decide) (by decide) (by decide)
    (by decide) (by decide)

/-- Counterexample to C1 as stated: the token `tokFar` expires more than the
largest `time.Duration` after the revocation, so `time.Until` saturates and the
record written by `Destroy` lapses before the token does; at `tLate`, before
`expires_at`, `ParseClaims` returns the claims although the in-memory store
honours read-your-own-write. -/
theorem Destroy_then_ParseClaims_far_expiry :
    memStore.ReadYourWrite ∧
      Destroy refLib authMem ctx0 t0 t0 t0 [] tokFar =
        .ret (none, [(tokFar, t0 + maxDuration)]) ∧
      claimsFar.ExpiresAt = some (10000000000 * Second) ∧
      t0 ≤ tLate ∧ tLate < 10000000000 * Second ∧
      ParseClaims refLib authMem ctx0 tLate tLate [(tokFar, t0 + maxDuration)] tokFar =
        .ret (.ok claimsFar, [(tokFar, t0 + maxDuration)]) :=
  ⟨memStore_readYourWrite, rfl, rfl, by decide, by decide, rfl⟩

theorem defaultOptions_methodRegistered : defaultOptions.methodRegistered := rfl

/-- The value `NewNumericDate t` is `t` rounded down to a whole second. -/
theorem NewNumericDate_eq (t : Int) : NewNumericDate t = t - t % 1000000000 := by
  simp only [NewNumericDate, Time.Truncate, TimePrecision, Second, unixToInternal]
  norm_num
  unfold Time Duration
  omega

theorem NewNumericDate_idem (t : Int) : NewNumericDate (NewNumericDate t) = NewNumericDate t := by
  have h1 := NewNumericDate_eq (NewNumericDate t)
  have h2 := NewNumericDate_eq t
  unfold Time at *
  omega

theorem NewNumericDate_le (t : Int) : NewNumericDate t ≤ t := by
  have h2 := NewNumericDate_eq t
  unfold Time at *
  omega

theorem NewNumericDate_mono (t u : Int) (h : t ≤ u) : NewNumericDate t ≤ NewNumericDate u := by
  have h1 := NewNumericDate_eq u
  have h2 := NewNumericDate_eq t
  unfold Time at *
  omega

theorem Header.get_set_ne (h : Header) (k k1 : String) (v : HeaderValue) (hne : k ≠ k1) :
    (h.set k v).get k1 = h.get k1 := by
  induction h with
  | nil => simp [Header.set, Header.get, hne]
  | cons e rest ih =>
    obtain ⟨ke, ve⟩ := e
    by_cases hk : ke = k
    · subst hk
      simp [Header.set, Header.get, hne]
    · by_cases hk1 : ke = k1
      · subst hk1
        simp [Header.set, Header.get, hk]
      · simp [Header.set, Header.get, hk, hk1, ih]

theorem Header.get_foldl_set (extra : Header) (h : Header) (k1 : String)
    (hne : ∀ kv ∈ extra, kv.1 ≠ k1) :
    (extra.foldl (fun h kv => h.set kv.1 kv.2) h).get k1 = h.get k1 := by
  induction extra generalizing h with
  | nil => rfl
  | cons e rest ih =>
    simp only [List.foldl_cons]
    rw [ih _ (fun kv hkv => hne kv (List.mem_cons_of_mem _ hkv))]
    exact Header.get_set_ne h e.1 k1 e.2 (hne e (List.mem_cons_self _ _))

/-- The token that `Sign` builds declares the configured method, carries the
argument as subject and the configured issuer, unless the configured header
fields overwrite "alg". -/
theorem Sign.token_alg {σ : Type} (a : JWTAuth σ) (now : Time) (userID : GoString)
    (hhdr : a.opts.headerKeepsAlg) :
    (Sign.token a now userID).Header.get "alg" = some (.str a.opts.signingMethod.Alg) := by
  unfold Sign.token
  cases hh : a.opts.tokenHeader with
  | none => simp [NewWithClaims, Header.get]
  | some extra =>
    simp only
    rw [Header.get_foldl_set extra _ "alg" (hhdr extra hh)]
    simp [NewWithClaims, Header.get]

theorem Sign.token_Claims {σ : Type} (a : JWTAuth σ) (now : Time) (userID : GoString) :
    (Sign.token a now userID).Claims =
      { Issuer := a.opts.issuer, Subject := userID, Audience := [],
        ExpiresAt := some (NewNumericDate (now.Add a.opts.expired)),
        NotBefore := some (NewNumericDate now), IssuedAt := some (NewNumericDate now),
        ID := "" } := by
  unfold Sign.token
  cases a.opts.tokenHeader <;> rfl

theorem Sign.token_Method {σ : Type} (a : JWTAuth σ) (now : Time) (userID : GoString) :
    (Sign.token a now userID).Method = a.opts.signingMethod := by
  unfold Sign.token
  cases a.opts.tokenHeader <;> rfl

theorem bookEncode_mem {α : Type} [DecidableEq α] (book : List (α × String)) (a : α)
    (seg : String) (h : bookEncode book a = some seg) : (a, seg) ∈ book := by
  induction book with
  | nil => simp [bookEncode] at h
  | cons e rest ih =>
    obtain ⟨x, sg⟩ := e
    by_cases hx : x = a
    · simp [bookEncode, hx] at h
      simp [hx, h]
    · simp [bookEncode, hx] at h
      exact List.mem_cons_of_mem _ (ih h)

/-- A well-formed code book decodes what it encodes, into segments without
dots. -/
theorem bookDecode_of_encode {α : Type} [DecidableEq α] (book : List (α × String))
    (hok : bookOK book = true) (a : α) (seg : String) (h : bookEncode book a = some seg) :
    dotFree seg ∧ bookDecode book seg = some a := by
  induction book with
  | nil => simp [bookEncode] at h
  | cons e rest ih =>
    obtain ⟨x, sg⟩ := e
    simp only [bookOK, List.map_cons, List.nodup_cons, List.all_cons, Bool.and_eq_true,
      decide_eq_true_eq] at hok
    obtain ⟨⟨hnot, hnd⟩, hdot, hall⟩ := hok
    have hrest : bookOK rest = true := by
      simp only [bookOK, Bool.and_eq_true, decide_eq_true_eq]
      exact ⟨hnd, hall⟩
    by_cases hx : x = a
    · simp only [bookEncode, hx, if_true, Option.some.injEq] at h
      subst h
      refine ⟨?_, by simp [bookDecode, hx]⟩
      intro hmem
      have := List.all_eq_true.mp hdot '.' hmem
      simp at this
    · simp only [bookEncode, hx, if_false] at h
      obtain ⟨hd, hdec⟩ := ih hrest h
      refine ⟨hd, ?_⟩
      have hne : sg ≠ seg := by
        intro e
        apply hnot
        rw [e]
        exact List.mem_map.mpr ⟨(a, seg), bookEncode_mem rest a seg h, rfl⟩
      simp [bookDecode, hne, hdec]

theorem mac_dotFree (m : SigningMethod) (key sstr : String) : dotFree (mac m key sstr) := by
  intro h
  simp [mac] at h

/-- The instance `bookLib` over well-formed code books meets the contract of
the library. -/
theorem bookLib_lawful (headers : List (Header × String))
    (claims : List (RegisteredClaims × String)) (hh : bookOK headers = true)
    (hc : bookOK claims = true) : (bookLib headers claims).Lawful := by
  refine ⟨?_, ?_, ?_, ?_⟩
  · intro h seg he
    simp only [bookLib] at he ⊢
    cases hb : bookEncode headers h with
    | none => simp [hb] at he
    | some sg =>
      simp only [hb, Except.ok.injEq] at he
      subst he
      exact bookDecode_of_encode headers hh h sg hb
  · intro c seg he _ _ _
    simp only [bookLib] at he ⊢
    cases hb : bookEncode claims c with
    | none => simp [hb] at he
    | some sg =>
      simp only [hb, Except.ok.injEq] at he
      subst he
      obtain ⟨hd, hdec⟩ := bookDecode_of_encode claims hc c sg hb
      exact ⟨hd, c.Subject, c.Issuer, hdec, fun _ => rfl, fun _ => rfl⟩
  · intro m sstr key sig hs
    simp only [bookLib] at hs
    split at hs
    · injection hs with hs
      rw [← hs]
      exact mac_dotFree _ _ _
    · cases hs
  · intro m sstr k sig hm hs
    simp only [bookLib, hm] at hs ⊢
    injection hs with hs
    simp [hs]

theorem refLib_lawful : refLib.Lawful :=
  bookLib_lawful _ _ (by decide) (by decide)

/-- The default options verify what they sign, for every library that meets its
contract. -/
theorem defaultOptions_KeysAgree (lib : Lib) (hlib : lib.Lawful) :
    defaultOptions.KeysAgree lib := by
  refine ⟨_, rfl, ?_⟩
  intro tok hm
  refine ⟨.bytes defaultKey, ?_, ?_⟩
  · have : tok.Method.isHMAC = true := by rw [hm]; rfl
    simp [this]
  · intro sstr sig hs
    exact hlib.hmac_verify _ sstr defaultKey sig rfl hs

/-- Options that keep the default key function and the default key and sign
with a method of the HMAC type verify what they sign. -/
theorem KeysAgree_of_default_key (lib : Lib) (hlib : lib.Lawful) (o : options)
    (hkf : o.keyfunc = defaultOptions.keyfunc) (hkey : o.signingKey = .bytes defaultKey)
    (hm : o.signingMethod.isHMAC = true) : o.KeysAgree lib := by
  refine ⟨_, hkf, ?_⟩
  intro tok htok
  refine ⟨.bytes defaultKey, ?_, ?_⟩
  · have h1 : tok.Method.isHMAC = true := by rw [htok]; exact hm
    simp [h1]
  · intro sstr sig hs
    rw [hkey] at hs
    exact hlib.hmac_verify _ sstr defaultKey sig hm hs

/-- What a successful `Sign` consists of: both segments encode, the signature is
made, and the result carries the joined token, the configured type label and
the Unix seconds of `now + expired`. -/
theorem Sign_ok_iff {σ : Type} (lib : Lib) (a : JWTAuth σ) (ctx : Context) (now : Time)
    (userID : GoString) (ti : tokenInfo) :
    Sign lib a ctx now userID = .ok ti ↔
      ∃ h c sig, lib.encodeHeader (Sign.token a now userID).Header = .ok h ∧
        lib.encodeClaims (Sign.token a now userID).Claims = .ok c ∧
        lib.Sign a.opts.signingMethod (h ++ "." ++ c) a.opts.signingKey = .ok sig ∧
        ti = { Token := h ++ "." ++ c ++ "." ++ sig, Type_ := a.opts.tokenType,
               ExpiresAt := (now.Add a.opts.expired).Unix } := by
  unfold Sign Token.SignedString Token.SigningString
  simp only [Sign.token_Method]
  cases hh : lib.encodeHeader (Sign.token a now userID).Header with
  | error e => simp
  | ok h =>
    cases hc : lib.encodeClaims (Sign.token a now userID).Claims with
    | error e => simp
    | ok c =>
      cases hs : lib.Sign a.opts.signingMethod (h ++ "." ++ c) a.opts.signingKey with
      | error e => simp [hs]
      | ok sig =>
        simp only [hs, Except.ok.injEq]
        constructor
        · intro e
          exact ⟨h, c, sig, rfl, rfl, hs, e.symm⟩
        · rintro ⟨h1, c1, sig1, e1, e2, e3, e4⟩
          subst e1 e2
          rw [hs] at e3
          injection e3 with e3
          subst e3
          exact e4.symm

/-- The token that `Sign` issues decodes, without verification, to the header
and the claims that `Sign` built (subject and issuer as the codec returns
them: unchanged when they are valid UTF-8), under the configured method, when
the library meets its contract, the configured method is the registered
instance of its name and the configured header fields leave "alg" alone. -/
theorem ParseUnverified_of_Sign {σ : Type} (lib : Lib) (hlib : lib.Lawful) (a : JWTAuth σ)
    (ctx : Context) (hreg : a.opts.methodRegistered) (hhdr : a.opts.headerKeepsAlg)
    (now : Time) (userID : GoString) (ti : tokenInfo)
    (hsign : Sign lib a ctx now userID = .ok ti) :
    ∃ h c sig sub iss,
      lib.Sign a.opts.signingMethod (h ++ "." ++ c) a.opts.signingKey = .ok sig ∧
      ParseUnverified lib ti.Token =
        .ok ({ Raw := ti.Token, Method := a.opts.signingMethod,
               Header := (Sign.token a now userID).Header,
               Claims := { (Sign.token a now userID).Claims with
                           Subject := sub, Issuer := iss },
               Signature := "", Valid := false },
             h, c, sig) ∧
      (userID.isUTF8 = true → sub = userID) ∧
      (a.opts.issuer.isUTF8 = true → iss = a.opts.issuer) := by
  obtain ⟨h, c, sig, hh, hc, hs, rfl⟩ := (Sign_ok_iff lib a ctx now userID ti).1 hsign
  obtain ⟨hdh, hdec⟩ := hlib.header_decode _ _ hh
  obtain ⟨hdc, sub, iss, hdecc, hsub, hiss⟩ := hlib.claims_decode _ _ hc
    (by rw [Sign.token_Claims]; simp [NewNumericDate_idem])
    (by rw [Sign.token_Claims]; simp [NewNumericDate_idem])
    (by rw [Sign.token_Claims]; simp [NewNumericDate_idem])
  have hds := hlib.sign_dotFree _ _ _ _ hs
  refine ⟨h, c, sig, sub, iss, hs, ?_, ?_, ?_⟩
  · unfold ParseUnverified
    rw [splitOnDot_three h c sig hdh hdc hds]
    have hreg1 : GetSigningMethod a.opts.signingMethod.Alg = some a.opts.signingMethod := hreg
    simp only [hdec, hdecc, Sign.token_alg a now userID hhdr, hreg1]
  · intro hv
    have h1 := hsub (by rw [Sign.token_Claims]; exact hv)
    rw [h1, Sign.token_Claims]
  · intro hv
    have h1 := hiss (by rw [Sign.token_Claims]; exact hv)
    rw [h1, Sign.token_Claims]

/-- A token issued by `Sign` at `now` is accepted by `parseToken` at every
reading from `now` up to (excluded) its expiry, with the subject and the issuer
that `Sign` was given when these are valid UTF-8, when the library meets its
contract, the configured method is the registered instance of its name, the
configuration verifies what it signs and the configured header fields leave
"alg" alone. -/
theorem parseToken_of_Sign {σ : Type} (lib : Lib) (hlib : lib.Lawful) (a : JWTAuth σ)
    (ctx : Context) (hreg : a.opts.methodRegistered) (hkeys : a.opts.KeysAgree lib)
    (hhdr : a.opts.headerKeepsAlg) (now now1 : Time) (userID : GoString) (ti : tokenInfo)
    (hsign : Sign lib a ctx now userID = .ok ti) (hnow : now ≤ now1)
    (hlife : now1 < NewNumericDate (now.Add a.opts.expired)) :
    ∃ claims, parseToken lib a ctx now1 ti.Token = .ok claims ∧
      (userID.isUTF8 = true → claims.Subject = userID) ∧
      (a.opts.issuer.isUTF8 = true → claims.Issuer = a.opts.issuer) := by
  obtain ⟨h, c, sig, sub, iss, hs, hpu, hsub, hiss⟩ :=
    ParseUnverified_of_Sign lib hlib a ctx hreg hhdr now userID ti hsign
  obtain ⟨kf, hkf, hk⟩ := hkeys
  obtain ⟨key, hkey, hver⟩ := hk
    { Raw := ti.Token, Method := a.opts.signingMethod,
      Header := (Sign.token a now userID).Header,
      Claims := { (Sign.token a now userID).Claims with Subject := sub, Issuer := iss },
      Signature := "", Valid := false } rfl
  refine ⟨_, (parseToken_ok_iff lib a ctx now1 _ _).2
    ⟨_, h, c, sig, kf, key, hpu, hkf, hkey, ?_, hver _ _ hs, rfl, rfl⟩, hsub, hiss⟩
  rw [validErrors_eq_zero_iff_window]
  simp only [Sign.token_Claims]
  refine ⟨?_, ?_, ?_⟩
  · intro e he
    simp only [Option.some.injEq] at he
    rw [← he]
    exact hlife
  · intro i hi
    simp only [Option.some.injEq] at hi
    rw [← hi]
    exact le_trans (NewNumericDate_le now) hnow
  · intro n hn
    simp only [Option.some.injEq] at hn
    rw [← hn]
    exact le_trans (NewNumericDate_le now) hnow

/-- The instance `jsonLib` meets the contract of the library. -/
theorem jsonLib_lawful : jsonLib.Lawful := by
  refine ⟨refLib_lawful.header_decode, ?_, refLib_lawful.sign_dotFree,
    refLib_lawful.hmac_verify⟩
  intro c seg he h1 h2 h3
  by_cases hc : c = claimsRaw
  · subst hc
    have hseg : seg = "cFFFD" := by
      simp only [jsonLib, if_true, Except.ok.injEq] at he
      exact he.symm
    subst hseg
    refine ⟨by unfold dotFree; decide, .utf8 "\uFFFD", .utf8 "", rfl, ?_, fun _ => rfl⟩
    intro hv
    exact absurd hv (by decide)
  · have he1 : refLib.encodeClaims c = .ok seg := by
      simp only [jsonLib, if_neg hc] at he
      exact he
    obtain ⟨hd, sub, iss, hdec, hsub, hiss⟩ := refLib_lawful.claims_decode c seg he1 h1 h2 h3
    refine ⟨hd, sub, iss, ?_, hsub, hiss⟩
    have hne : seg ≠ "cFFFD" := by
      intro e
      rw [e] at hdec
      have hnone : refLib.decodeClaims "cFFFD" = none := by decide
      rw [hnone] at hdec
      cases hdec
    simp only [jsonLib, if_neg hne]
    exact hdec

/-- C2 (amended): round trip.  When the configured signing method is the
registered instance of its name, the configuration verifies what it signs (the
key function resolves a key under which signatures made with the signing key
verify), the configured header fields leave "alg" alone and no revocation
record is present for the token, then for every subject, if `Sign` succeeds at
`now`, `ParseClaims` of the issued token at a reading `now1` with
`now <= now1 < expires_at` succeeds and returns claims whose subject is the
argument when the argument is valid UTF-8 and whose issuer is the configured
issuer when that is valid UTF-8. -/
theorem Sign_then_ParseClaims_roundtrip {σ : Type} (lib : Lib) (hlib : lib.Lawful)
    (a : JWTAuth σ) (ctx : Context) (hreg : a.opts.methodRegistered)
    (hkeys : a.opts.KeysAgree lib) (hhdr : a.opts.headerKeepsAlg)
    (now now1 tCheck : Time) (s : σ) (userID : GoString)
    (ti : tokenInfo) (hsign : Sign lib a ctx now userID = .ok ti) (hnow : now ≤ now1)
    (hlife : now1 < NewNumericDate (now.Add a.opts.expired))
    (hstore : ∀ st, a.store = some st → (st.Check s tCheck ti.Token).1 = .ok false) :
    ∃ claims s1, ParseClaims lib a ctx now1 tCheck s ti.Token = .ret (.ok claims, s1) ∧
      (userID.isUTF8 = true → claims.Subject = userID) ∧
      (a.opts.issuer.isUTF8 = true → claims.Issuer = a.opts.issuer) := by
  obtain ⟨claims, hp, hsub, hiss⟩ :=
    parseToken_of_Sign lib hlib a ctx hreg hkeys hhdr now now1 userID ti hsign hnow hlife
  have hne : ti.Token ≠ "" := by
    intro e
    rw [e, parseToken_empty] at hp
    cases hp
  cases hst : a.store with
  | none =>
    exact ⟨claims, s, by simp [ParseClaims, hne, hp, callStore, hst], hsub, hiss⟩
  | some st =>
    have hc := hstore st hst
    cases hchk : st.Check s tCheck ti.Token with
    | mk r s1 =>
      rw [hchk] at hc
      simp only at hc
      subst hc
      exact ⟨claims, s1, by simp [ParseClaims, hne, hp, callStore, hst, hchk], hsub, hiss⟩

/-- Witness of C2: the default authenticator without a store signs a token for
"user-42" at `t0` and parses it back at the same reading. -/
theorem Sign_then_ParseClaims_roundtrip_witness :
    Sign refLib auth0 ctx0 t0 (.utf8 "user-42") = .ok ⟨tok42, "Bearer", 8200⟩ ∧
      ∃ claims s1, ParseClaims refLib auth0 ctx0 t0 t0 () tok42 = .ret (.ok claims, s1) ∧
        claims.Subject = .utf8 "user-42" ∧ claims.Issuer = .utf8 "" := by
  obtain ⟨claims, s1, hp, hsub, hiss⟩ :=
    Sign_then_ParseClaims_roundtrip refLib refLib_lawful auth0 ctx0
      defaultOptions_methodRegistered (defaultOptions_KeysAgree refLib refLib_lawful)
      (fun h hh => by cases hh) t0 t0 t0 () (.utf8 "user-42") ⟨tok42, "Bearer", 8200⟩ rfl
      (le_refl _) (by decide) (fun st hst => by cases hst)
  exact ⟨rfl, claims, s1, hp, hsub rfl, hiss rfl⟩

/-- Counterexample to C2 as stated: five authenticators produced by `New` whose
`Sign` succeeds and whose `ParseClaims`, at the very reading of the issuance
and without a store, does not give the subject back.  Four fail: a signing key
that the key function does not return, a zero lifetime, a header field that
overwrites "alg", and a signing method that is an instance of its own (same
name and type as the registered HS256) and is refused by the identity
comparison of `parseToken`.  For the fifth, the default authenticator, the
subject is not valid UTF-8 and comes back altered by the JSON codec. -/
theorem Sign_then_ParseClaims_fails :
    (Sign refLib authK2 ctx0 t0 (.utf8 "user-42") =
        .ok ⟨"hHS256.c42.HS256|k2|hHS256c42", "Bearer", 8200⟩ ∧
      ParseClaims refLib authK2 ctx0 t0 t0 () "hHS256.c42.HS256|k2|hHS256c42" =
        .ret (.error (Unauthorized reason
          ((FromContext ctx0).LocalizeT (some MessageTokenParseFail))), ())) ∧
    (Sign refLib authZero ctx0 t0 (.utf8 "user-42") =
        .ok ⟨"hHS256.cZero.HS256|onex(#)666|hHS256cZero", "Bearer", 1000⟩ ∧
      ParseClaims refLib authZero ctx0 t0 t0 () "hHS256.cZero.HS256|onex(#)666|hHS256cZero" =
        .ret (.error (Unauthorized reason
          ((FromContext ctx0).LocalizeT (some MessageTokenExpired))), ())) ∧
    (Sign refLib authAlg ctx0 t0 (.utf8 "user-42") =
        .ok ⟨"hHS384.c42.HS256|onex(#)666|hHS384c42", "Bearer", 8200⟩ ∧
      ParseClaims refLib authAlg ctx0 t0 t0 () "hHS384.c42.HS256|onex(#)666|hHS384c42" =
        .ret (.error (Unauthorized reason
          ((FromContext ctx0).LocalizeT (some MessageTokenParseFail))), ())) ∧
    (Sign refLib authCustom ctx0 t0 (.utf8 "user-42") = .ok ⟨tok42, "Bearer", 8200⟩ ∧
      authCustom.opts.signingMethod.Alg = "HS256" ∧
      GetSigningMethod "HS256" = some .HS256 ∧
      authCustom.opts.signingMethod ≠ .HS256 ∧
      ParseClaims refLib authCustom ctx0 t0 t0 () tok42 =
        .ret (.error (Unauthorized reason
          ((FromContext ctx0).LocalizeT (some MessageUnSupportSigningMethod))), ())) ∧
    (jsonLib.Lawful ∧
      Sign jsonLib auth0 ctx0 t0 (.raw [255]) =
        .ok ⟨"hHS256.cFFFD.HS256|onex(#)666|hHS256cFFFD", "Bearer", 8200⟩ ∧
      ParseClaims jsonLib auth0 ctx0 t0 t0 () "hHS256.cFFFD.HS256|onex(#)666|hHS256cFFFD" =
        .ret (.ok claimsFFFD, ()) ∧
      claimsFFFD.Subject = .utf8 "\uFFFD" ∧ claimsFFFD.Subject ≠ .raw [255]) :=
  ⟨⟨rfl, rfl⟩, ⟨rfl, rfl⟩, ⟨rfl, rfl⟩, ⟨rfl, rfl, rfl, by decide, rfl⟩,
    ⟨jsonLib_lawful, rfl, rfl, rfl, by decide⟩⟩

/-- C3: fail-closed.  For a non-empty token that passes the verification of
`parseToken`, if the `Check` of the configured store returns the error `e`,
then `ParseClaims` returns no claims and returns exactly `e`. -/
theorem ParseClaims_store_failure {σ : Type} (lib : Lib) (a : JWTAuth σ) (ctx : Context)
    (st : Storer σ) (hst : a.store = some st) (now tCheck : Time) (s s1 : σ)
    (tok : String) (claims : RegisteredClaims) (e : GoError) (hne : tok ≠ "")
    (hp : parseToken lib a ctx now tok = .ok claims)
    (hchk : st.Check s tCheck tok = (.error e, s1)) :
    ParseClaims lib a ctx now tCheck s tok = .ret (.error e, s1) := by
  simp [ParseClaims, hne, hp, callStore, hst, hchk]

/-- Witness of C3: the store is unreachable; `ParseClaims` of a valid token
returns the error of the store. -/
theorem ParseClaims_store_failure_witness :
    ParseClaims refLib authDown ctx0 t0 t0 () tok42 =
      .ret (.error (.other "dial tcp: connection refused"), ()) :=
  ParseClaims_store_failure refLib authDown ctx0
    (downStore (.other "dial tcp: connection refused")) rfl t0 t0 () () tok42 claims42
    (.other "dial tcp: connection refused") (by decide) rfl rfl

/-- A key function error that is not a validation error is reported by
`parseToken` as the parse failure. -/
theorem parseToken_keyfunc_rejects {σ : Type} (lib : Lib) (a : JWTAuth σ) (ctx : Context)
    (now : Time) (tok : String) (token : Token) (p0 p1 p2 : String) (kf : Keyfunc)
    (err : GoError) (hpu : ParseUnverified lib tok = .ok (token, p0, p1, p2))
    (hkf : a.opts.keyfunc = some kf) (hk : kf token = .error err)
    (hnv : ∀ ve, err ≠ .validation ve) :
    parseToken lib a ctx now tok =
      .error (Unauthorized reason ((FromContext ctx).LocalizeT (some MessageTokenParseFail))) := by
  unfold parseToken ParseWithClaims
  simp only [hpu, hkf, hk]
  have h1 : ¬ (ValidationErrorUnverifiable &&& ValidationErrorMalformed ≠ 0) := by decide
  have h2 : ¬ (ValidationErrorUnverifiable &&&
      (ValidationErrorExpired ||| ValidationErrorNotValidYet) ≠ 0) := by decide
  cases err with
  | validation ve => exact absurd rfl (hnv ve)
  | kratos c r m => simp only [if_neg h1, if_neg h2]
  | other m => simp only [if_neg h1, if_neg h2]

/-- A token that verifies under the resolved key but declares a method other
than the configured one is reported by `parseToken` as the wrong signing
method. -/
theorem parseToken_wrong_method {σ : Type} (lib : Lib) (a : JWTAuth σ) (ctx : Context)
    (now : Time) (tok : String) (token : Token) (p0 p1 p2 : String) (kf : Keyfunc)
    (key : Key) (hpu : ParseUnverified lib tok = .ok (token, p0, p1, p2))
    (hm : token.Method ≠ a.opts.signingMethod)
    (hkf : a.opts.keyfunc = some kf) (hk : kf token = .ok key)
    (hv : token.Claims.validErrors now = 0)
    (hver : lib.Verify token.Method (p0 ++ "." ++ p1) p2 key = none) :
    parseToken lib a ctx now tok =
      .error (Unauthorized reason
        ((FromContext ctx).LocalizeT (some MessageUnSupportSigningMethod))) := by
  have ht := (ParseWithClaims_ok_iff lib tok a.opts.keyfunc now
    { token with Signature := p2, Valid := true }).2
    ⟨token, p0, p1, p2, kf, key, hpu, hkf, hk, hv, hver, rfl⟩
  unfold parseToken
  simp [ht, hm]

/-- A token whose declared method is not the configured one is never accepted
by `parseToken`. -/
theorem parseToken_mismatch_error {σ : Type} (lib : Lib) (a : JWTAuth σ) (ctx : Context)
    (now : Time) (tok : String) (token : Token) (p0 p1 p2 : String)
    (hpu : ParseUnverified lib tok = .ok (token, p0, p1, p2))
    (hm : token.Method ≠ a.opts.signingMethod) :
    ∃ msg, parseToken lib a ctx now tok = .error (Unauthorized reason msg) := by
  cases hp : parseToken lib a ctx now tok with
  | error e =>
    obtain ⟨msg, rfl⟩ := parseToken_error_unauthorized lib a ctx now tok e hp
    exact ⟨msg, rfl⟩
  | ok claims =>
    obtain ⟨token1, q0, q1, q2, kf, key, hpu1, _, _, _, _, hm1, _⟩ :=
      (parseToken_ok_iff lib a ctx now tok claims).1 hp
    rw [hpu] at hpu1
    injection hpu1 with hpu1
    injection hpu1 with ht _
    subst ht
    exact absurd hm1 hm

theorem ParseUnverified_empty (lib : Lib) :
    ParseUnverified lib "" =
      .error ⟨ValidationErrorMalformed, "token contains an invalid number of segments"⟩ := by
  rfl

/-- When `parseToken` fails on a non-empty token, `ParseClaims` returns that
error and leaves the store alone. -/
theorem ParseClaims_of_parse_error {σ : Type} (lib : Lib) (a : JWTAuth σ) (ctx : Context)
    (now tCheck : Time) (s : σ) (tok : String) (e : GoError) (hne : tok ≠ "")
    (hp : parseToken lib a ctx now tok = .error e) :
    ParseClaims lib a ctx now tCheck s tok = .ret (.error e, s) := by
  simp [ParseClaims, hne, hp]

/-- When `parseToken` fails, `Destroy` returns that error and leaves the store
alone. -/
theorem Destroy_of_parse_error {σ : Type} (lib : Lib) (a : JWTAuth σ) (ctx : Context)
    (now nowUntil tSet : Time) (s : σ) (tok : String) (e : GoError)
    (hp : parseToken lib a ctx now tok = .error e) :
    Destroy lib a ctx now nowUntil tSet s tok = .ret (some e, s) := by
  simp [Destroy, hp]

theorem ne_empty_of_ParseUnverified (lib : Lib) (tok : String)
    (r : Token × String × String × String) (h : ParseUnverified lib tok = .ok r) :
    tok ≠ "" := by
  intro e
  rw [e, ParseUnverified_empty] at h
  cases h

/-- C4 (amended): a token whose declared method differs from the configured
one is never accepted: `ParseClaims` and `Destroy` fail with an `Unauthorized`
error and the state of the store is untouched.  The error is the wrong signing
method failure when the token otherwise verifies under the key that the key
function returns; when the key function itself rejects the token (with an error
that is not a validation error, as the default key function does for a method
outside the HMAC family) the error is the parse failure. -/
theorem algorithm_mismatch_rejected {σ : Type} (lib : Lib) (a : JWTAuth σ) (ctx : Context)
    (now nowUntil tSet tCheck : Time) (s : σ) (tok : String) (token : Token)
    (p0 p1 p2 : String) (hpu : ParseUnverified lib tok = .ok (token, p0, p1, p2))
    (hm : token.Method ≠ a.opts.signingMethod) :
    (∃ msg, ParseClaims lib a ctx now tCheck s tok = .ret (.error (Unauthorized reason msg), s) ∧
      Destroy lib a ctx now nowUntil tSet s tok = .ret (some (Unauthorized reason msg), s)) ∧
    (∀ kf key, a.opts.keyfunc = some kf → kf token = .ok key →
      token.Claims.validErrors now = 0 →
      lib.Verify token.Method (p0 ++ "." ++ p1) p2 key = none →
      ParseClaims lib a ctx now tCheck s tok =
          .ret (.error (Unauthorized reason
            ((FromContext ctx).LocalizeT (some MessageUnSupportSigningMethod))), s) ∧
        Destroy lib a ctx now nowUntil tSet s tok =
          .ret (some (Unauthorized reason
            ((FromContext ctx).LocalizeT (some MessageUnSupportSigningMethod))), s)) ∧
    (∀ kf err, a.opts.keyfunc = some kf → kf token = .error err →
      (∀ ve, err ≠ .validation ve) →
      ParseClaims lib a ctx now tCheck s tok =
          .ret (.error (Unauthorized reason
            ((FromContext ctx).LocalizeT (some MessageTokenParseFail))), s) ∧
        Destroy lib a ctx now nowUntil tSet s tok =
          .ret (some (Unauthorized reason
            ((FromContext ctx).LocalizeT (some MessageTokenParseFail))), s)) := by
  have hne := ne_empty_of_ParseUnverified lib tok _ hpu
  refine ⟨?_, ?_, ?_⟩
  · obtain ⟨msg, hp⟩ := parseToken_mismatch_error lib a ctx now tok token p0 p1 p2 hpu hm
    exact ⟨msg, ParseClaims_of_parse_error lib a ctx now tCheck s tok _ hne hp,
      Destroy_of_parse_error lib a ctx now nowUntil tSet s tok _ hp⟩
  · intro kf key hkf hk hv hver
    have hp := parseToken_wrong_method lib a ctx now tok token p0 p1 p2 kf key hpu hm hkf hk
      hv hver
    exact ⟨ParseClaims_of_parse_error lib a ctx now tCheck s tok _ hne hp,
      Destroy_of_parse_error lib a ctx now nowUntil tSet s tok _ hp⟩
  · intro kf err hkf hk hnv
    have hp := parseToken_keyfunc_rejects lib a ctx now tok token p0 p1 p2 kf err hpu hkf hk hnv
    exact ⟨ParseClaims_of_parse_error lib a ctx now tCheck s tok _ hne hp,
      Destroy_of_parse_error lib a ctx now nowUntil tSet s tok _ hp⟩

/-- Witness of C4: under the default configuration (HS256) the correctly signed
HS384 token is refused with the wrong signing method failure by `ParseClaims`
and by `Destroy`, and the recording store has received no call. -/
theorem algorithm_mismatch_rejected_witness :
    ParseClaims refLib authLog ctx0 t0 t0 [] tokHS384 =
        .ret (.error (Unauthorized reason
          ((FromContext ctx0).LocalizeT (some MessageUnSupportSigningMethod))), []) ∧
      Destroy refLib authLog ctx0 t0 t0 t0 [] tokHS384 =
        .ret (some (Unauthorized reason
          ((FromContext ctx0).LocalizeT (some MessageUnSupportSigningMethod))), []) :=
  (algorithm_mismatch_rejected refLib authLog ctx0 t0 t0 t0 t0 [] tokHS384
    { Raw := tokHS384, Method := .HS384, Header := hdrHS384, Claims := claims42,
      Signature := "", Valid := false }
    "hHS384" "c42" "HS384|onex(#)666|hHS384c42" rfl (by decide)).2.1
    (fun t => if !t.Method.isHMAC then .error ErrTokenInvalid else .ok (.bytes defaultKey))
    (.bytes defaultKey) rfl rfl (by decide) rfl

/-- Counterexample to C4 as stated: under the default configuration the token
that declares RS256 is rejected by the default key function; `ParseClaims` and
`Destroy` then fail with the parse failure, which is not the wrong signing
method failure. -/
theorem algorithm_mismatch_keyfunc_rejects :
    ParseClaims refLib authLog ctx0 t0 t0 [] tokRS256 =
        .ret (.error (Unauthorized reason
          ((FromContext ctx0).LocalizeT (some MessageTokenParseFail))), []) ∧
      Destroy refLib authLog ctx0 t0 t0 t0 [] tokRS256 =
        .ret (some (Unauthorized reason
          ((FromContext ctx0).LocalizeT (some MessageTokenParseFail))), []) ∧
      Unauthorized reason ((FromContext ctx0).LocalizeT (some MessageTokenParseFail)) ≠
        Unauthorized reason ((FromContext ctx0).LocalizeT (some MessageUnSupportSigningMethod)) :=
  ⟨rfl, rfl, by decide⟩

/-- With a store configured, `Destroy` of a token that `parseToken` accepts and
that carries an `expires_at` is exactly one `Set`, with the token as key and
`time.Until(expires_at)` as TTL. -/
theorem Destroy_eq_Set {σ : Type} (lib : Lib) (a : JWTAuth σ) (ctx : Context)
    (st : Storer σ) (hst : a.store = some st) (now nowUntil tSet : Time) (s : σ)
    (tok : String) (claims : RegisteredClaims) (exp : Time)
    (hp : parseToken lib a ctx now tok = .ok claims) (hexp : claims.ExpiresAt = some exp) :
    Destroy lib a ctx now nowUntil tSet s tok =
      .ret (st.Set s tSet tok (Until exp nowUntil)) := by
  simp [Destroy, hp, callStore, hst, hexp]

/-- C5 (evaluation at the failing input): `tok42` expires at 8200 s.  It is
verified at `tLast`, one nanosecond before its expiry, and `time.Until` reads the
clock one second after the expiry.  `Destroy` calls `Set` once, with the token
as key and the negative TTL of minus one second, not with `max(0, .) = 0`; the
redis `Store` hands the negative expiration on to the client. -/
theorem Destroy_negative_ttl :
    parseToken refLib authLog ctx0 tLast tok42 = .ok claims42 ∧
      claims42.ExpiresAt = some (8200 * Second) ∧
      Until (8200 * Second) (8201 * Second) = -Second ∧
      Destroy refLib authLog ctx0 tLast (8201 * Second) (8201 * Second) [] tok42 =
        .ret (none, [.Set tok42 (-Second)]) ∧
      Destroy refLib authRedis ctx0 tLast (8201 * Second) (8201 * Second) [] tok42 =
        .ret (none, [("jwt:" ++ tok42, "1", -Second)]) :=
  ⟨rfl, rfl, by decide, rfl, rfl⟩

theorem validErrors_expired (c : RegisteredClaims) (now : Time)
    (h : verifyExp c.ExpiresAt now false = false) :
    c.validErrors now ≠ 0 ∧ c.validErrors now &&& ValidationErrorMalformed = 0 ∧
      c.validErrors now &&& (ValidationErrorExpired ||| ValidationErrorNotValidYet) ≠ 0 := by
  unfold RegisteredClaims.validErrors
  rw [h]
  cases verifyIat c.IssuedAt now false <;> cases verifyNbf c.NotBefore now false <;> decide

/-- A correctly signed token whose `expires_at` has passed is reported by
`parseToken` as expired. -/
theorem parseToken_expired {σ : Type} (lib : Lib) (a : JWTAuth σ) (ctx : Context)
    (now : Time) (tok : String) (token : Token) (p0 p1 p2 : String) (kf : Keyfunc)
    (key : Key) (exp : Time) (hpu : ParseUnverified lib tok = .ok (token, p0, p1, p2))
    (hkf : a.opts.keyfunc = some kf) (hk : kf token = .ok key)
    (hver : lib.Verify token.Method (p0 ++ "." ++ p1) p2 key = none)
    (hexp : token.Claims.ExpiresAt = some exp) (hnow : exp ≤ now) :
    parseToken lib a ctx now tok =
      .error (Unauthorized reason ((FromContext ctx).LocalizeT (some MessageTokenExpired))) := by
  have hv : verifyExp token.Claims.ExpiresAt now false = false := by
    simp [verifyExp, hexp, Time.Before, hnow]
  obtain ⟨h0, h1, h2⟩ := validErrors_expired token.Claims now hv
  unfold parseToken ParseWithClaims
  simp only [hpu, hkf, hk, hver, RegisteredClaims.Valid, if_neg h0]
  simp [h0, h1, h2]

/-- C6 (amended): for a correctly signed, well-formed token whose `expires_at`
has passed at the verification reading, `Destroy` returns the expired failure
and leaves the store alone, whether or not a store is configured. -/
theorem Destroy_expired {σ : Type} (lib : Lib) (a : JWTAuth σ) (ctx : Context)
    (now nowUntil tSet : Time) (s : σ) (tok : String) (token : Token) (p0 p1 p2 : String)
    (kf : Keyfunc) (key : Key) (exp : Time)
    (hpu : ParseUnverified lib tok = .ok (token, p0, p1, p2))
    (hkf : a.opts.keyfunc = some kf) (hk : kf token = .ok key)
    (hver : lib.Verify token.Method (p0 ++ "." ++ p1) p2 key = none)
    (hexp : token.Claims.ExpiresAt = some exp) (hnow : exp ≤ now) :
    Destroy lib a ctx now nowUntil tSet s tok =
      .ret (some (Unauthorized reason
        ((FromContext ctx).LocalizeT (some MessageTokenExpired))), s) :=
  Destroy_of_parse_error lib a ctx now nowUntil tSet s tok _
    (parseToken_expired lib a ctx now tok token p0 p1 p2 kf key exp hpu hkf hk hver hexp hnow)

/-- Witness of C6: `tok42` at the instant of its expiry, over the recording
store: the expired failure, and no call to the store. -/
theorem Destroy_expired_witness :
    Destroy refLib authLog ctx0 (8200 * Second) (8200 * Second) (8200 * Second) [] tok42 =
      .ret (some (Unauthorized reason
        ((FromContext ctx0).LocalizeT (some MessageTokenExpired))), []) :=
  Destroy_expired refLib authLog ctx0 (8200 * Second) (8200 * Second) (8200 * Second) []
    tok42 { Raw := tok42, Method := .HS256, Header := hdrHS256, Claims := claims42,
            Signature := "", Valid := false }
    "hHS256" "c42" "HS256|onex(#)666|hHS256c42"
    (fun t => if !t.Method.isHMAC then .error ErrTokenInvalid else .ok (.bytes defaultKey))
    (.bytes defaultKey) (8200 * Second) rfl rfl rfl rfl rfl (le_refl _)

/-- Counterexample to C6 as stated: `tok42` is correctly signed and expires at
8200 s; at that instant `Destroy` returns an error, without a store and with
one. -/
theorem Destroy_expired_returns_error :
    Destroy refLib auth0 ctx0 (8200 * Second) (8200 * Second) (8200 * Second) () tok42 =
        .ret (some (Unauthorized reason
          ((FromContext ctx0).LocalizeT (some MessageTokenExpired))), ()) ∧
      Destroy refLib authMem ctx0 (8200 * Second) (8200 * Second) (8200 * Second) [] tok42 =
        .ret (some (Unauthorized reason
          ((FromContext ctx0).LocalizeT (some MessageTokenExpired))), []) :=
  ⟨rfl, rfl⟩

/-- C7 (amended): without a store, `Destroy` performs no store operation; it
returns success for every token that `parseToken` accepts and the failure of
`parseToken` for every other token. -/
theorem Destroy_no_store {σ : Type} (lib : Lib) (a : JWTAuth σ) (ctx : Context)
    (hst : a.store = none) (now nowUntil tSet : Time) (s : σ) (tok : String) :
    Destroy lib a ctx now nowUntil tSet s tok =
      match parseToken lib a ctx now tok with
      | .ok _ => .ret (none, s)
      | .error err => .ret (some err, s) := by
  unfold Destroy
  cases parseToken lib a ctx now tok with
  | error err => rfl
  | ok claims => simp [callStore, hst]

/-- Witness of C7: without a store, `Destroy` of the valid token `tok42`
succeeds. -/
theorem Destroy_no_store_witness :
    Destroy refLib auth0 ctx0 t0 t0 t0 () tok42 = .ret (none, ()) :=
  Destroy_no_store refLib auth0 ctx0 rfl t0 t0 t0 () tok42

/-- Counterexample to C7 as stated: without a store, `Destroy` of the empty
string and of a token that declares RS256 return an error. -/
theorem Destroy_no_store_returns_error :
    Destroy refLib auth0 ctx0 t0 t0 t0 () "" =
        .ret (some (Unauthorized reason
          ((FromContext ctx0).LocalizeT (some MessageTokenInvalid))), ()) ∧
      Destroy refLib auth0 ctx0 t0 t0 t0 () tokRS256 =
        .ret (some (Unauthorized reason
          ((FromContext ctx0).LocalizeT (some MessageTokenParseFail))), ()) :=
  ⟨rfl, rfl⟩

/-- C8: for every authenticator, with or without a store, `ParseClaims("")`
returns the malformed failure (status code 401, reason "Unauthorized", the
localized text of `MessageTokenInvalid`, whose default text is that of
`ErrTokenInvalid`, "Token is invalid") and no claims; the result does not depend
on the library primitives (the parser is not run) and the state of the store,
whatever the store, is unchanged (no `Check`, `Set` or `Delete`). -/
theorem ParseClaims_empty {σ : Type} (lib : Lib) (a : JWTAuth σ) (ctx : Context)
    (now tCheck : Time) (s : σ) :
    ParseClaims lib a ctx now tCheck s "" =
        .ret (.error (.kratos 401 "Unauthorized"
          ((FromContext ctx).LocalizeT (some MessageTokenInvalid))), s) ∧
      MessageTokenInvalid = ⟨"jwt.token.invalid", ErrTokenInvalid.Error⟩ ∧
      ErrTokenInvalid = .kratos 401 "Unauthorized" "Token is invalid" :=
  ⟨rfl, rfl, rfl⟩

theorem isUnauthorized_Unauthorized (msg : String) :
    (Unauthorized reason msg).isUnauthorized := ⟨msg, rfl⟩

/-- C9 (amended): every error that `Sign`, `ParseClaims` or `Destroy` returns is
of the unauthorized class (status code 401, reason "Unauthorized"), except an
error of a store operation, which is returned as the store gave it: an error of
`ParseClaims` outside the class is the error of the `Check` of the store, an
error of `Destroy` outside the class is the error of the `Set` of the store. -/
theorem errors_unauthorized_or_store {σ : Type} (lib : Lib) (a : JWTAuth σ) (ctx : Context) :
    (∀ now userID e, Sign lib a ctx now userID = .error e → e.isUnauthorized) ∧
    (∀ now tCheck s tok e s1, ParseClaims lib a ctx now tCheck s tok = .ret (.error e, s1) →
      e.isUnauthorized ∨ ∃ st, a.store = some st ∧ st.Check s tCheck tok = (.error e, s1)) ∧
    (∀ now nowUntil tSet s tok e s1,
      Destroy lib a ctx now nowUntil tSet s tok = .ret (some e, s1) →
      e.isUnauthorized ∨
        ∃ st ttl, a.store = some st ∧ st.Set s tSet tok ttl = (some e, s1)) := by
  refine ⟨?_, ?_, ?_⟩
  · intro now userID e h
    unfold Sign at h
    simp only at h
    split at h
    · injection h with h
      exact ⟨_, h.symm⟩
    · cases h
  · intro now tCheck s tok e s1 h
    unfold ParseClaims at h
    split at h
    · simp only [Run.ret.injEq, Prod.mk.injEq, Except.error.injEq] at h
      exact Or.inl ⟨_, h.1.symm⟩
    · cases hp : parseToken lib a ctx now tok with
      | error err =>
        simp only [hp, Run.ret.injEq, Prod.mk.injEq, Except.error.injEq] at h
        obtain ⟨msg, hmsg⟩ := parseToken_error_unauthorized lib a ctx now tok err hp
        rw [← h.1, hmsg]
        exact Or.inl (isUnauthorized_Unauthorized msg)
      | ok claims =>
        simp only [hp, callStore] at h
        cases hst : a.store with
        | none => simp [hst] at h
        | some st =>
          simp only [hst] at h
          cases hc : st.Check s tCheck tok with
          | mk r s2 =>
            simp only [hc] at h
            cases r with
            | error err =>
              simp only [Run.ret.injEq, Prod.mk.injEq, Except.error.injEq] at h
              exact Or.inr ⟨st, rfl, by rw [← h.1, ← h.2]; exact hc⟩
            | ok found =>
              cases found with
              | true =>
                simp only [if_true, Run.ret.injEq, Prod.mk.injEq,
                  Except.error.injEq] at h
                exact Or.inl ⟨_, h.1.symm⟩
              | false => simp at h
  · intro now nowUntil tSet s tok e s1 h
    unfold Destroy at h
    cases hp : parseToken lib a ctx now tok with
    | error err =>
      simp only [hp, Run.ret.injEq, Prod.mk.injEq, Option.some.injEq] at h
      obtain ⟨msg, hmsg⟩ := parseToken_error_unauthorized lib a ctx now tok err hp
      rw [← h.1, hmsg]
      exact Or.inl (isUnauthorized_Unauthorized msg)
    | ok claims =>
      simp only [hp, callStore] at h
      cases hst : a.store with
      | none => simp [hst] at h
      | some st =>
        simp only [hst] at h
        cases hexp : claims.ExpiresAt with
        | none => simp [hexp] at h
        | some exp =>
          simp only [hexp, Run.ret.injEq] at h
          exact Or.inr ⟨st, _, rfl, h⟩

/-- Witness of C9: the error that `ParseClaims` returns for the token that
declares RS256 is of the unauthorized class or comes from the store. -/
theorem errors_unauthorized_or_store_witness :
    (Unauthorized reason
        ((FromContext ctx0).LocalizeT (some MessageTokenParseFail))).isUnauthorized ∨
      ∃ st, authDown.store = some st ∧
        st.Check () t0 tokRS256 =
          (.error (Unauthorized reason
            ((FromContext ctx0).LocalizeT (some MessageTokenParseFail))), ()) :=
  (errors_unauthorized_or_store refLib authDown ctx0).2.1 t0 t0 () tokRS256 _ () rfl

/-- Counterexample to C9 as stated: the backend of the store is unreachable;
`ParseClaims` and `Destroy` of the valid token `tok42` return the error of the
store, which is not of the unauthorized class. -/
theorem store_error_not_unauthorized :
    ParseClaims refLib authDown ctx0 t0 t0 () tok42 =
        .ret (.error (.other "dial tcp: connection refused"), ()) ∧
      Destroy refLib authDown ctx0 t0 t0 t0 () tok42 =
        .ret (some (.other "dial tcp: connection refused"), ()) ∧
      ¬ (GoError.other "dial tcp: connection refused").isUnauthorized :=
  ⟨rfl, rfl, fun ⟨_, h⟩ => by cases h⟩

/-- C10 (amended): for every configuration and every subject, the claims that
`Sign` builds from the single reading `now` have `issued_at = not_before = now`
rounded down to the second, `expires_at = now + lifetime` rounded down to the
second, the configured issuer and the argument as subject, so that
`issued_at <= not_before`; when the configured lifetime is not negative they
also satisfy `not_before <= expires_at`. -/
theorem Sign_claims {σ : Type} (a : JWTAuth σ) (now : Time) (userID : GoString) :
    ∃ iat nbf exp, (Sign.token a now userID).Claims =
        { Issuer := a.opts.issuer, Subject := userID, Audience := [],
          ExpiresAt := some exp, NotBefore := some nbf, IssuedAt := some iat, ID := "" } ∧
      iat = now - now % Second ∧ nbf = now - now % Second ∧
      exp = (now + a.opts.expired) - (now + a.opts.expired) % Second ∧
      iat ≤ nbf ∧ (0 ≤ a.opts.expired → nbf ≤ exp) := by
  refine ⟨NewNumericDate now, NewNumericDate now, NewNumericDate (now.Add a.opts.expired),
    Sign.token_Claims a now userID, NewNumericDate_eq now, NewNumericDate_eq now,
    NewNumericDate_eq _, le_refl _, ?_⟩
  intro hlife
  apply NewNumericDate_mono
  unfold Time.Add
  linarith

/-- Witness of C10: the default authenticator at `t0`; its lifetime of two hours
is not negative, so the three dates are in order. -/
theorem Sign_claims_witness :
    ∃ iat nbf exp, (Sign.token auth0 t0 (.utf8 "user-42")).Claims =
        { Issuer := .utf8 "", Subject := .utf8 "user-42", Audience := [],
          ExpiresAt := some exp, NotBefore := some nbf, IssuedAt := some iat, ID := "" } ∧
      iat = t0 - t0 % Second ∧ nbf = t0 - t0 % Second ∧
      exp = (t0 + 2 * Hour) - (t0 + 2 * Hour) % Second ∧
      iat ≤ nbf ∧ nbf ≤ exp := by
  obtain ⟨iat, nbf, exp, h1, h2, h3, h4, h5, h6⟩ := Sign_claims auth0 t0 (.utf8 "user-42")
  exact ⟨iat, nbf, exp, h1, h2, h3, h4, h5, h6 (by decide)⟩

/-- Counterexample to C10 as stated: `New` accepts the lifetime of minus one
hour; the claims that `Sign` then builds at `t0` expire 3600 s before their
`not_before`. -/
theorem Sign_claims_negative_lifetime :
    authNeg.opts.expired = -Hour ∧
      (Sign.token authNeg t0 (.utf8 "user-42")).Claims.NotBefore = some (1000 * Second) ∧
      (Sign.token authNeg t0 (.utf8 "user-42")).Claims.ExpiresAt = some (-2600 * Second) ∧
      ¬ ((1000 * Second : Int) ≤ -2600 * Second) :=
  ⟨rfl, rfl, rfl, by decide⟩

/-- Adding a whole number `k` of seconds to an instant adds `k` to its Unix
seconds, and rounding an instant down to the second keeps its Unix seconds. -/
theorem Unix_add_seconds (t k : Int) :
    Time.Unix (t + k * Second) = Time.Unix (NewNumericDate t) + k ∧
      Time.Unix (t + k * Second) = Time.Unix (NewNumericDate (t + k * Second)) := by
  have h1 := NewNumericDate_eq t
  have h2 := NewNumericDate_eq (t + k * Second)
  simp only [Time.Unix, Second] at *
  unfold Time at *
  omega

/-- C11: for every clock reading `now` and every lifetime of a whole number `k`
of seconds, the token information that `Sign` returns has the configured type
label, and its `ExpiresAt` is the Unix seconds of the claims' `issued_at` plus
`k`, and the Unix seconds of the claims' `expires_at`; the default label is
"Bearer" and the default lifetime 7200 seconds. -/
theorem Sign_tokenInfo {σ : Type} (lib : Lib) (a : JWTAuth σ) (ctx : Context) (now : Time)
    (userID : GoString) (ti : tokenInfo) (k : Int)
    (hsign : Sign lib a ctx now userID = .ok ti) (hk : a.opts.expired = k * Second) :
    ti.Type_ = a.opts.tokenType ∧
      (∃ iat exp, (Sign.token a now userID).Claims.IssuedAt = some iat ∧
        (Sign.token a now userID).Claims.ExpiresAt = some exp ∧
        ti.ExpiresAt = iat.Unix + k ∧ ti.ExpiresAt = exp.Unix) ∧
      defaultOptions.tokenType = "Bearer" ∧ defaultOptions.expired = 7200 * Second := by
  obtain ⟨h, c, sig, _, _, _, rfl⟩ := (Sign_ok_iff lib a ctx now userID ti).1 hsign
  refine ⟨rfl, ⟨NewNumericDate now, NewNumericDate (now.Add a.opts.expired), ?_, ?_, ?_, ?_⟩,
    rfl, by decide⟩
  · rw [Sign.token_Claims]
  · rw [Sign.token_Claims]
  · simp only [Time.Add, hk]
    exact (Unix_add_seconds now k).1
  · simp only [Time.Add, hk]
    exact (Unix_add_seconds now k).2

/-- Witness of C11: the default authenticator at `t0` (1000.5 s) returns the
label "Bearer" and the expiry 8200 = 1000 + 7200. -/
theorem Sign_tokenInfo_witness :
    Sign refLib auth0 ctx0 t0 (.utf8 "user-42") = .ok ⟨tok42, "Bearer", 8200⟩ ∧
      (tokenInfo.mk tok42 "Bearer" 8200).Type_ = auth0.opts.tokenType ∧
      (∃ iat exp, (Sign.token auth0 t0 (.utf8 "user-42")).Claims.IssuedAt = some iat ∧
        (Sign.token auth0 t0 (.utf8 "user-42")).Claims.ExpiresAt = some exp ∧
        (tokenInfo.mk tok42 "Bearer" 8200).ExpiresAt = iat.Unix + 7200 ∧
        (tokenInfo.mk tok42 "Bearer" 8200).ExpiresAt = exp.Unix) ∧
      defaultOptions.tokenType = "Bearer" ∧ defaultOptions.expired = 7200 * Second :=
  ⟨rfl, Sign_tokenInfo refLib auth0 ctx0 t0 (.utf8 "user-42") ⟨tok42, "Bearer", 8200⟩ 7200 rfl
    (by decide)⟩

/-- A token that `ParseUnverified` reports as malformed is reported by
`parseToken` as the invalid token. -/
theorem parseToken_malformed {σ : Type} (lib : Lib) (a : JWTAuth σ) (ctx : Context)
    (now : Time) (tok : String) (ve : ValidationError)
    (hpu : ParseUnverified lib tok = .error ve)
    (hbit : ve.Errors &&& ValidationErrorMalformed ≠ 0) :
    parseToken lib a ctx now tok =
      .error (Unauthorized reason ((FromContext ctx).LocalizeT (some MessageTokenInvalid))) := by
  unfold parseToken ParseWithClaims
  simp only [hpu, if_pos hbit]

/-- For a token that `parseToken` accepts and for which the `Check` of the store
reports a record, `ParseClaims` returns the invalid token failure. -/
theorem ParseClaims_revoked {σ : Type} (lib : Lib) (a : JWTAuth σ) (ctx : Context)
    (st : Storer σ) (hst : a.store = some st) (now tCheck : Time) (s s1 : σ) (tok : String)
    (claims : RegisteredClaims) (hp : parseToken lib a ctx now tok = .ok claims)
    (hchk : st.Check s tCheck tok = (.ok true, s1)) :
    ParseClaims lib a ctx now tCheck s tok =
      .ret (.error (Unauthorized reason
        ((FromContext ctx).LocalizeT (some MessageTokenInvalid))), s1) := by
  have hne : tok ≠ "" := by
    intro e
    rw [e, parseToken_empty] at hp
    cases hp
  simp [ParseClaims, hne, hp, callStore, hst, hchk]

/-- C12 (amended): the failure that `ParseClaims` returns for a revoked token
(accepted by `parseToken`, present in the store) is the very error that it
returns for a malformed token and for the empty string: `Unauthorized` with the
reason of the package and the localized text of `MessageTokenInvalid`; the two
cannot be told apart by message or reason. -/
theorem revoked_same_as_malformed {σ : Type} (lib : Lib) (a : JWTAuth σ) (ctx : Context)
    (st : Storer σ) (hst : a.store = some st) (now tCheck : Time) (s s1 : σ)
    (tok bad : String) (claims : RegisteredClaims) (ve : ValidationError)
    (hp : parseToken lib a ctx now tok = .ok claims)
    (hchk : st.Check s tCheck tok = (.ok true, s1))
    (hbad : ParseUnverified lib bad = .error ve)
    (hbit : ve.Errors &&& ValidationErrorMalformed ≠ 0) :
    ∃ e, e = Unauthorized reason ((FromContext ctx).LocalizeT (some MessageTokenInvalid)) ∧
      ParseClaims lib a ctx now tCheck s tok = .ret (.error e, s1) ∧
      ParseClaims lib a ctx now tCheck s bad = .ret (.error e, s) ∧
      ParseClaims lib a ctx now tCheck s "" = .ret (.error e, s) := by
  refine ⟨_, rfl, ParseClaims_revoked lib a ctx st hst now tCheck s s1 tok claims hp hchk,
    ?_, rfl⟩
  by_cases hb : bad = ""
  · subst hb
    rfl
  · exact ParseClaims_of_parse_error lib a ctx now tCheck s bad _ hb
      (parseToken_malformed lib a ctx now bad ve hbad hbit)

/-- Witness of C12: over the in-memory store that holds the record of `tok42`,
the revoked `tok42`, the one-segment string "garbage" and the empty string get
the same error. -/
theorem revoked_same_as_malformed_witness :
    ∃ e, e = Unauthorized reason ((FromContext ctx0).LocalizeT (some MessageTokenInvalid)) ∧
      ParseClaims refLib authMem ctx0 t0 t0 revoked42 tok42 = .ret (.error e, revoked42) ∧
      ParseClaims refLib authMem ctx0 t0 t0 revoked42 "garbage" = .ret (.error e, revoked42) ∧
      ParseClaims refLib authMem ctx0 t0 t0 revoked42 "" = .ret (.error e, revoked42) :=
  revoked_same_as_malformed refLib authMem ctx0 memStore rfl t0 t0 revoked42 revoked42
    tok42 "garbage" claims42
    ⟨ValidationErrorMalformed, "token contains an invalid number of segments"⟩
    rfl rfl rfl (by decide)

/-- Counterexample to C12 as stated: the error of `ParseClaims` for the revoked
`tok42` and its error for the malformed string "garbage" are one and the same
value, with the same reason and the same message. -/
theorem revoked_not_distinguishable :
    parseToken refLib authMem ctx0 t0 tok42 = .ok claims42 ∧
      (memStore.Check revoked42 t0 tok42).1 = .ok true ∧
      ParseClaims refLib authMem ctx0 t0 t0 revoked42 tok42 =
        .ret (.error (.kratos 401 "Unauthorized"
          ((FromContext ctx0).LocalizeT (some MessageTokenInvalid))), revoked42) ∧
      ParseClaims refLib authMem ctx0 t0 t0 revoked42 "garbage" =
        .ret (.error (.kratos 401 "Unauthorized"
          ((FromContext ctx0).LocalizeT (some MessageTokenInvalid))), revoked42) ∧
      ParseClaims refLib authMem ctx0 t0 t0 revoked42 "" =
        .ret (.error (.kratos 401 "Unauthorized"
          ((FromContext ctx0).LocalizeT (some MessageTokenInvalid))), revoked42) :=
  ⟨rfl, rfl, rfl, rfl, rfl⟩

/-- The verdict of `parseToken` on a token issued by `Sign`, under a
configuration whose method is the registered instance of its name, that
verifies what it signs and leaves "alg" alone: claims with the dates that
`Sign` gave them at every reading from `issued_at` up to (excluded)
`expires_at`, the expired failure from `expires_at` on. -/
theorem parseToken_of_Sign_window {σ : Type} (lib : Lib) (hlib : lib.Lawful) (a : JWTAuth σ)
    (ctx : Context) (hreg : a.opts.methodRegistered) (hkeys : a.opts.KeysAgree lib)
    (hhdr : a.opts.headerKeepsAlg) (now : Time) (userID : GoString) (ti : tokenInfo)
    (hsign : Sign lib a ctx now userID = .ok ti) (now1 : Time) :
    (NewNumericDate now ≤ now1 → now1 < NewNumericDate (now.Add a.opts.expired) →
      ∃ claims, parseToken lib a ctx now1 ti.Token = .ok claims ∧
        claims.IssuedAt = some (NewNumericDate now) ∧
        claims.NotBefore = some (NewNumericDate now) ∧
        claims.ExpiresAt = some (NewNumericDate (now.Add a.opts.expired)) ∧
        (userID.isUTF8 = true → claims.Subject = userID)) ∧
    (NewNumericDate (now.Add a.opts.expired) ≤ now1 →
      parseToken lib a ctx now1 ti.Token =
        .error (Unauthorized reason
          ((FromContext ctx).LocalizeT (some MessageTokenExpired)))) := by
  obtain ⟨h, c, sig, sub, iss, hs, hpu, hsub, _⟩ :=
    ParseUnverified_of_Sign lib hlib a ctx hreg hhdr now userID ti hsign
  obtain ⟨kf, hkf, hk⟩ := hkeys
  obtain ⟨key, hkey, hver⟩ := hk
    { Raw := ti.Token, Method := a.opts.signingMethod,
      Header := (Sign.token a now userID).Header,
      Claims := { (Sign.token a now userID).Claims with Subject := sub, Issuer := iss },
      Signature := "", Valid := false } rfl
  constructor
  · intro hiat hexp
    refine ⟨_, (parseToken_ok_iff lib a ctx now1 _ _).2
      ⟨_, h, c, sig, kf, key, hpu, hkf, hkey, ?_, hver _ _ hs, rfl, rfl⟩,
      by simp only [Sign.token_Claims], by simp only [Sign.token_Claims],
      by simp only [Sign.token_Claims], hsub⟩
    rw [validErrors_eq_zero_iff_window]
    simp only [Sign.token_Claims]
    refine ⟨?_, ?_, ?_⟩
    · intro e he
      simp only [Option.some.injEq] at he
      rw [← he]
      exact hexp
    · intro i hi
      simp only [Option.some.injEq] at hi
      rw [← hi]
      exact hiat
    · intro n hn
      simp only [Option.some.injEq] at hn
      rw [← hn]
      exact hiat
  · intro hexp
    exact parseToken_expired lib a ctx now1 ti.Token _ h c sig kf key
      (NewNumericDate (now.Add a.opts.expired)) hpu hkf hkey (hver _ _ hs)
      (by simp only [Sign.token_Claims]) hexp

/-- C13 (amended): for a token issued by `Sign` under a configuration whose
signing method is the registered instance of its name, that verifies what it
signs and whose header fields leave "alg" alone, and with no revocation record
for it (or no store), `ParseClaims` succeeds, with the dates that `Sign` gave
the claims (and the subject, when it is valid UTF-8), at every reading `now1`
with `issued_at <= now1 < expires_at`, and returns the expired failure, without
consulting the store, at every reading `now1 >= expires_at`, the instant
`expires_at` included. -/
theorem issued_token_valid_until_expiry {σ : Type} (lib : Lib) (hlib : lib.Lawful)
    (a : JWTAuth σ) (ctx : Context) (hreg : a.opts.methodRegistered)
    (hkeys : a.opts.KeysAgree lib) (hhdr : a.opts.headerKeepsAlg) (now tCheck : Time)
    (s : σ) (userID : GoString) (ti : tokenInfo)
    (hsign : Sign lib a ctx now userID = .ok ti)
    (hstore : ∀ st, a.store = some st → (st.Check s tCheck ti.Token).1 = .ok false) :
    ∃ iat exp, (Sign.token a now userID).Claims.IssuedAt = some iat ∧
      (Sign.token a now userID).Claims.ExpiresAt = some exp ∧
      (∀ now1, iat ≤ now1 → now1 < exp →
        ∃ claims s1, ParseClaims lib a ctx now1 tCheck s ti.Token = .ret (.ok claims, s1) ∧
          claims.IssuedAt = some iat ∧ claims.NotBefore = some iat ∧
          claims.ExpiresAt = some exp ∧
          (userID.isUTF8 = true → claims.Subject = userID)) ∧
      (∀ now1, exp ≤ now1 →
        ParseClaims lib a ctx now1 tCheck s ti.Token =
          .ret (.error (Unauthorized reason
            ((FromContext ctx).LocalizeT (some MessageTokenExpired))), s)) := by
  obtain ⟨h, c, sig, sub, iss, _, hpu, _, _⟩ :=
    ParseUnverified_of_Sign lib hlib a ctx hreg hhdr now userID ti hsign
  have hne := ne_empty_of_ParseUnverified lib ti.Token _ hpu
  refine ⟨NewNumericDate now, NewNumericDate (now.Add a.opts.expired),
    by rw [Sign.token_Claims], by rw [Sign.token_Claims], ?_, ?_⟩
  · intro now1 hiat hexp
    obtain ⟨claims, hp, h1, h2, h3, h4⟩ :=
      (parseToken_of_Sign_window lib hlib a ctx hreg hkeys hhdr now userID ti hsign
        now1).1 hiat hexp
    cases hst : a.store with
    | none => exact ⟨claims, s, by simp [ParseClaims, hne, hp, callStore, hst], h1, h2, h3, h4⟩
    | some st =>
      have hc := hstore st hst
      cases hchk : st.Check s tCheck ti.Token with
      | mk r s1 =>
        rw [hchk] at hc
        simp only at hc
        subst hc
        exact ⟨claims, s1, by simp [ParseClaims, hne, hp, callStore, hst, hchk],
          h1, h2, h3, h4⟩
  · intro now1 hexp
    exact ParseClaims_of_parse_error lib a ctx now1 tCheck s ti.Token _ hne
      ((parseToken_of_Sign_window lib hlib a ctx hreg hkeys hhdr now userID ti hsign
        now1).2 hexp)

/-- Witness of C13: the token that the default authenticator signs at `t0`
(issued at 1000 s, expiring at 8200 s) is accepted at 1000 s and one nanosecond
before 8200 s, and reported as expired at 8200 s. -/
theorem issued_token_valid_until_expiry_witness :
    (ParseClaims refLib auth0 ctx0 (1000 * Second) t0 () tok42 = .ret (.ok claims42, ()) ∧
      ParseClaims refLib auth0 ctx0 tLast t0 () tok42 = .ret (.ok claims42, ())) ∧
      ParseClaims refLib auth0 ctx0 (8200 * Second) t0 () tok42 =
        .ret (.error (Unauthorized reason
          ((FromContext ctx0).LocalizeT (some MessageTokenExpired))), ()) := by
  obtain ⟨iat, exp, hiat, hexp, _, hout⟩ :=
    issued_token_valid_until_expiry refLib refLib_lawful auth0 ctx0
      defaultOptions_methodRegistered (defaultOptions_KeysAgree refLib refLib_lawful)
      (fun h hh => by cases hh) t0 t0 () (.utf8 "user-42") ⟨tok42, "Bearer", 8200⟩ rfl
      (fun st hst => by cases hst)
  have e2 : exp = 8200 * Second := by
    have h2 : (Sign.token auth0 t0 (.utf8 "user-42")).Claims.ExpiresAt =
        some (8200 * Second) := rfl
    rw [h2] at hexp
    injection hexp with hexp
    exact hexp.symm
  subst e2
  exact ⟨⟨rfl, rfl⟩, hout (8200 * Second) (le_refl _)⟩

/-- Counterexample to C13 as stated: two configurations that sign and verify
with the same default key and whose freshly issued token (issued at 1000 s,
expiring at 8200 s) `ParseClaims` refuses at `t0`, inside its window.
`authAlg` stamps "alg": "HS384" on the header: the parse failure.  `authCustom`
signs with an instance of its own named "HS256", which is not the instance of
the registry that the parser resolves: the wrong signing method failure. -/
theorem issued_token_refused_in_window :
    (authAlg.opts.KeysAgree refLib ∧ authAlg.opts.methodRegistered ∧
      Sign refLib authAlg ctx0 t0 (.utf8 "user-42") =
        .ok ⟨"hHS384.c42.HS256|onex(#)666|hHS384c42", "Bearer", 8200⟩ ∧
      (Sign.token authAlg t0 (.utf8 "user-42")).Claims.IssuedAt = some (1000 * Second) ∧
      (Sign.token authAlg t0 (.utf8 "user-42")).Claims.ExpiresAt = some (8200 * Second) ∧
      (1000 * Second ≤ t0 ∧ t0 < 8200 * Second) ∧
      ParseClaims refLib authAlg ctx0 t0 t0 () "hHS384.c42.HS256|onex(#)666|hHS384c42" =
        .ret (.error (Unauthorized reason
          ((FromContext ctx0).LocalizeT (some MessageTokenParseFail))), ())) ∧
    (authCustom.opts.KeysAgree refLib ∧ authCustom.opts.headerKeepsAlg ∧
      Sign refLib authCustom ctx0 t0 (.utf8 "user-42") = .ok ⟨tok42, "Bearer", 8200⟩ ∧
      (Sign.token authCustom t0 (.utf8 "user-42")).Claims.IssuedAt =
        some (1000 * Second) ∧
      (Sign.token authCustom t0 (.utf8 "user-42")).Claims.ExpiresAt =
        some (8200 * Second) ∧
      ParseClaims refLib authCustom ctx0 t0 t0 () tok42 =
        .ret (.error (Unauthorized reason
          ((FromContext ctx0).LocalizeT (some MessageUnSupportSigningMethod))), ())) :=
  ⟨⟨defaultOptions_KeysAgree refLib refLib_lawful, rfl, rfl, rfl, rfl, by decide, rfl⟩,
    ⟨KeysAgree_of_default_key refLib refLib_lawful authCustom.opts rfl rfl rfl,
      (fun h hh => by cases hh), rfl, rfl, rfl, rfl⟩⟩

/-- With a store configured, `Destroy` of a token that `parseToken` accepts and
that carries no `expires_at` dereferences the nil `ExpiresAt`: it panics. -/
theorem Destroy_nil_ExpiresAt {σ : Type} (lib : Lib) (a : JWTAuth σ) (ctx : Context)
    (st : Storer σ) (hst : a.store = some st) (now nowUntil tSet : Time) (s : σ)
    (tok : String) (claims : RegisteredClaims)
    (hp : parseToken lib a ctx now tok = .ok claims) (hexp : claims.ExpiresAt = none) :
    Destroy lib a ctx now nowUntil tSet s tok = .panicked := by
  simp [Destroy, hp, callStore, hst, hexp]

/-- C14 (evaluation at the failing input): `tokNoExp` is correctly signed with
the default key under the configured method and carries no `expires_at`;
`parseToken` accepts it, and `Destroy`, with a store configured (the recording
store, the in-memory store, the redis store), panics on the nil `ExpiresAt`
instead of returning nil or the error of the store; without a store it returns
nil. -/
theorem Destroy_panics_without_expiry :
    parseToken refLib authLog ctx0 t0 tokNoExp = .ok claimsNoExp ∧
      claimsNoExp.ExpiresAt = none ∧
      Destroy refLib authLog ctx0 t0 t0 t0 [] tokNoExp = .panicked ∧
      Destroy refLib authMem ctx0 t0 t0 t0 [] tokNoExp = .panicked ∧
      Destroy refLib authRedis ctx0 t0 t0 t0 [] tokNoExp = .panicked ∧
      Destroy refLib auth0 ctx0 t0 t0 t0 () tokNoExp = .ret (none, ()) :=
  ⟨rfl, rfl, rfl, rfl, rfl, rfl⟩

end jwt

namespace id

/-- An invariant that every iteration of the body establishes for the next
index holds at the end of the loop, and the loop does not panic. -/
theorem loop_inv {σ : Type} (body : σ → Nat → Option σ) (bound : Nat) (P : Nat → σ → Prop)
    (hbody : ∀ i s, i < bound → P i s → ∃ s1, body s i = some s1 ∧ P (i + 1) s1) :
    ∀ n i s, i + n = bound → P i s → ∃ s1, loop body n i s = some s1 ∧ P bound s1 := by
  intro n
  induction n with
  | zero =>
    intro i s hi hP
    simp only [Nat.add_zero] at hi
    subst hi
    exact ⟨s, rfl, hP⟩
  | succ n ih =>
    intro i s hi hP
    obtain ⟨s1, hb, hP1⟩ := hbody i s (by omega) hP
    obtain ⟨s2, hl, hP2⟩ := ih (i + 1) s1 (by omega) hP1
    exact ⟨s2, by simp [loop, hb, hl], hP2⟩

theorem byte_of_le (n : Nat) (h : n ≤ 255) : byte n = n := by
  unfold byte
  omega

theorem byteOfInt_of_le (n : Int) (h0 : 0 ≤ n) (h : n ≤ 255) : byteOfInt n = n.toNat := by
  unfold byteOfInt
  omega

/-- One iteration of the first loop keeps the length of `slIdx` and keeps every
entry below the number of characters; it does not panic. -/
theorem spread_inv (charLen len : Nat) (h1 : 1 ≤ charLen) (h2 : charLen ≤ 255)
    (st : List Nat × Nat) (i : Nat) (hi : i < len)
    (hP : st.1.length = len ∧ ∀ x ∈ st.1, x < charLen) :
    ∃ st1, spread charLen st i = some st1 ∧
      st1.1.length = len ∧ ∀ x ∈ st1.1, x < charLen := by
  obtain ⟨sl, n⟩ := st
  obtain ⟨hlen, hall⟩ := hP
  simp only at hlen hall
  have hb : byte charLen = charLen := byte_of_le charLen h2
  have hlen1 : (sl.set i (byte (n % charLen))).length = len := by
    rw [List.length_set]
    exact hlen
  have hi1 : i < (sl.set i (byte (n % charLen))).length := by omega
  have h01 : 0 < (sl.set i (byte (n % charLen))).length := by omega
  unfold spread
  simp only
  rw [if_neg (by omega), if_neg (by omega), List.getElem?_eq_getElem hi1,
    List.getElem?_eq_getElem h01]
  simp only [hb]
  rw [if_neg (by omega)]
  refine ⟨_, rfl, ?_, ?_⟩
  · simp only [List.length_set]
    exact hlen
  · intro x hx
    rcases List.mem_or_eq_of_mem_set hx with hx | hx
    · rcases List.mem_or_eq_of_mem_set hx with hx | hx
      · exact hall x hx
      · rw [hx]
        unfold byte
        have := Nat.mod_lt n (show 0 < charLen by omega)
        omega
    · rw [hx]
      exact Nat.mod_lt _ (by omega)

/-- One iteration of the second loop appends one element of `chars` to `code`;
it does not panic. -/
theorem confuse_inv (ops : CodeOptions) (slIdx : List Nat) (hl1 : 1 ≤ ops.l)
    (hl2 : ops.l ≤ 255) (hlen : slIdx.length = ops.l.toNat)
    (hall : ∀ x ∈ slIdx, x < ops.chars.length) (code : List Char) (i : Nat)
    (hP : code.length = i ∧ ∀ c ∈ code, c ∈ ops.chars) :
    ∃ code1, confuse ops slIdx code i = some code1 ∧
      code1.length = i + 1 ∧ ∀ c ∈ code1, c ∈ ops.chars := by
  have hb : byteOfInt ops.l = ops.l.toNat := byteOfInt_of_le ops.l (by omega) hl2
  have hpos : 0 < ops.l.toNat := by omega
  have hidx : byte (byte i * byteOfInt ops.n2) % ops.l.toNat < slIdx.length := by
    rw [hlen]
    exact Nat.mod_lt _ hpos
  have hk : slIdx[byte (byte i * byteOfInt ops.n2) % ops.l.toNat] < ops.chars.length :=
    hall _ (List.getElem_mem _)
  unfold confuse
  simp only [hb]
  rw [if_neg (by omega), List.getElem?_eq_getElem hidx]
  simp only
  rw [List.getElem?_eq_getElem hk]
  refine ⟨_, rfl, ?_, ?_⟩
  · simp [hP.1]
  · intro c hc
    rcases List.mem_append.mp hc with hc | hc
    · exact hP.2 c hc
    · simp only [List.mem_singleton] at hc
      rw [hc]
      exact List.getElem_mem _

/-- C15: for every `id` and every code options with `1 <= len(chars) <= 255` and
`1 <= l <= 255`, `NewCode` (with `id*n1 + salt` computed modulo 2^64) does not
panic (no division by zero, no index out of range) and returns a string of
exactly `l` characters, each an element of `chars`; the result is a function
of `id` and of the options `(n1, n2, l, salt, chars)` alone. -/
theorem NewCode_total (dflt : CodeOptions) (id : Nat)
    (options : List (CodeOptions → CodeOptions)) (ops : CodeOptions)
    (hops : options.foldl (fun o f => f o) dflt = ops)
    (hc1 : 1 ≤ ops.chars.length) (hc2 : ops.chars.length ≤ 255)
    (hl1 : 1 ≤ ops.l) (hl2 : ops.l ≤ 255) :
    (∃ s, NewCode dflt id options = some s ∧ (s.length : Int) = ops.l ∧
      ∀ c ∈ s.data, c ∈ ops.chars) ∧
    (∀ dflt1 options1, options1.foldl (fun o f => f o) dflt1 = ops →
      NewCode dflt1 id options1 = NewCode dflt id options) := by
  constructor
  · obtain ⟨st1, h1, hlen1, hall1⟩ :=
      loop_inv (spread ops.chars.length) ops.l.toNat
        (fun _ st => st.1.length = ops.l.toNat ∧ ∀ x ∈ st.1, x < ops.chars.length)
        (fun i st hi hP => spread_inv ops.chars.length ops.l.toNat hc1 hc2 st i hi hP)
        ops.l.toNat 0
        (List.replicate ops.l.toNat 0,
          (id * uint64 ops.n1 + ops.salt) % 18446744073709551616)
        (by omega)
        ⟨by simp, fun x hx => by
          rw [(List.mem_replicate.mp hx).2]
          omega⟩
    obtain ⟨code, h2, hlen2, hall2⟩ :=
      loop_inv (confuse ops st1.1) ops.l.toNat
        (fun i code => code.length = i ∧ ∀ c ∈ code, c ∈ ops.chars)
        (fun i code _ hP => confuse_inv ops st1.1 hl1 hl2 hlen1 hall1 code i hP)
        ops.l.toNat 0 [] (by omega) ⟨rfl, fun c hc => by cases hc⟩
    refine ⟨String.mk code, ?_, ?_, hall2⟩
    · unfold NewCode
      simp only [hops]
      rw [if_neg (by omega), h1]
      simp only [h2]
    · show ((code.length : Nat) : Int) = ops.l
      rw [hlen2]
      omega
  · intro dflt1 options1 h1
    unfold NewCode
    simp only [hops, h1]

/-- Witness of C15: the sample options (32 characters, `l = 8`) and `id = 1`
give the eight-character code "S5KNV2U8". -/
theorem NewCode_total_witness :
    NewCode sampleOptions 1 [] = some "S5KNV2U8" ∧
      (∃ s, NewCode sampleOptions 1 [] = some s ∧ (s.length : Int) = sampleOptions.l ∧
        ∀ c ∈ s.data, c ∈ sampleOptions.chars) :=
  ⟨by decide, (NewCode_total sampleOptions 1 [] sampleOptions rfl (by decide) (by decide)
    (by decide) (by decide)).1⟩

end id
